import Mathlib

/-
  A shallow embedding of the MV-SCAN inconsistent-state detector:
  * `utils/sdg.py`   — the state-dependency-graph (SDG) builder `SDG.add_block`,
    the pair enumerator `stale_read_pairs` and its filter helpers,
  * `utils/alias.py` — the external-call alias registry,
  * `inconsistent_state.py` — the sink tests (`forward_slice_hits_sink_from`,
    `value_influence_hits_sensitive_sink`, `hits_sink`), `reachable_without_overwrite`,
    the call-graph edges and the per-pair labelling step of `InconsistentState._detect`.

  Modelling conventions, used consistently below:
  * Python strings are Lean `String`s.  The front-end text normalisation
    `norm_txt` (whitespace stripping, lower-casing, `address(...)` unwrapping)
    is a pre-processing step on front-end text; the model takes every IR text,
    variable name and mapping key in its canonical (post-`norm_txt`) form, so
    `norm_txt` and `canon_key` are the identity here.
  * Python `set`s and `dict`s are association lists with insertion order and
    no duplicate keys; `set.add` is an append-if-absent.  Python dict/set
    iteration order is modelled by the list order.
  * A Python `(function full_name, node_id)` block id is `BB := String × Nat`,
    compared exactly as Python compares the tuple (code-point lexicographic
    string order first, then the integer).
  * Slither objects (`Function`, `Node`, slithir operations) are modelled by
    the inductive types `FnInfo`, `Node`, `IROp` carrying exactly the fields
    the embedded code reads.  Object identity of slither state variables,
    functions and contracts is modelled by their (unique) names.
  * Python `while` loops over worklists are structural recursions on an
    explicit fuel; every top-level entry point passes a fuel that provably
    dominates the loop's iteration count (see the termination theorems).
  * The `os.getenv` ablation toggles are a `Config` record; `defaultCfg`
    is the documented default environment.
-/

namespace MVScan

/-! ### Python string primitives -/

/-- Lower-case an ASCII character, as `str.lower` does on ASCII input. -/
def charLower (c : Char) : Char :=
  if c.toNat ≥ 65 && c.toNat ≤ 90 then Char.ofNat (c.toNat + 32) else c

/-- Python `s.lower()` (ASCII fragment). -/
def pyLower (s : String) : String := ⟨s.data.map charLower⟩

def listStartsWith : List Char → List Char → Bool
  | _, [] => true
  | [], _ :: _ => false
  | a :: as, b :: bs => a == b && listStartsWith as bs

/-- Python `s.startswith(p)`. -/
def pyStartsWith (s p : String) : Bool := listStartsWith s.data p.data

/-- Python `s.endswith(p)`. -/
def pyEndsWith (s p : String) : Bool := listStartsWith s.data.reverse p.data.reverse

/-- Python `s.split(".")[0]`. -/
def headBeforeDot (s : String) : String := ⟨s.data.takeWhile (fun c => c ≠ '.')⟩

/-- Python `s.split('(')[0]`. -/
def headBeforeParen (s : String) : String := ⟨s.data.takeWhile (fun c => c ≠ '(')⟩

def charsLt : List Char → List Char → Bool
  | [], [] => false
  | [], _ :: _ => true
  | _ :: _, [] => false
  | a :: as, b :: bs => a.toNat < b.toNat || (a.toNat == b.toNat && charsLt as bs)

/-- Python `<` on strings: code-point lexicographic order. -/
def pyStrLt (a b : String) : Bool := charsLt a.data b.data

/-- Python `a or d` for an optional string `a` (both `None` and `""` are falsy). -/
def pyOr (a : Option String) (d : String) : String :=
  match a with
  | none => d
  | some s => if s = "" then d else s

/-! ### Block identities -/

/-- `BasicBlock = Tuple[str, int]`: (function full name, node id). -/
abbrev BB := String × Nat

/-- Python `<` on `BasicBlock` tuples (string code points, then the node id). -/
def bbLt (a b : BB) : Bool := pyStrLt a.1 b.1 || (a.1 == b.1 && decide (a.2 < b.2))

/-! ### Variable abstractions -/

/-- A slither `StateVariable` (identity modelled by its name; the remaining
fields are the attributes the detector reads). -/
structure StateVar where
  name : String
  is_constant : Bool
  is_immutable : Bool
  typ : String
deriving DecidableEq, Repr

/-- The closed variable universe of the detector: plain state variables,
`MappingSlotVar`, `ExternalStateVar` and (in `_detect`) `MultiVarGroup`.
`ext` stores the already-lower-cased `(selector, addr)` of `ExternalStateVar`. -/
inductive Var where
  | sv (s : StateVar)
  | slot (base : StateVar) (key : String)
  | ext (selector addr : String)
  | group (gid : Nat) (gname : String)
deriving DecidableEq, Repr

/-- `ExternalStateVar.__init__`: lower-cases the selector and `(addr or "unknown")`. -/
def mkExternalStateVar (selector : String) (addr : Option String) : Var :=
  Var.ext (pyLower selector) (pyLower (pyOr addr "unknown"))

/-- The `name` attribute of each variable shape. -/
def Var.vname : Var → String
  | .sv s => s.name
  | .slot b k => b.name ++ "[" ++ k ++ "]"
  | .ext sel addr => addr ++ "." ++ sel
  | .group _ g => g

/-- `str(v)` for each variable shape (`ExternalStateVar.__str__` is `EXT::addr::sel`). -/
def Var.vstr : Var → String
  | .sv s => s.name
  | .slot b k => b.name ++ "[" ++ k ++ "]"
  | .ext sel addr => "EXT::" ++ addr ++ "::" ++ sel
  | .group _ g => g

def isExtVar : Var → Bool
  | .ext _ _ => true
  | _ => false

/-- `is_const`: constants and immutables. -/
def is_const (s : StateVar) : Bool := s.is_constant || s.is_immutable

/-- `is_role_bytes32`: 32-byte role constants. -/
def is_role_bytes32 (s : StateVar) : Bool := s.typ == "bytes32" && pyEndsWith s.name "_ROLE"

/-! ### Slither front-end objects -/

/-- The node kinds the detector distinguishes (`NodeType.IF`, `RETURN`, plus
the version-conditional require/assert/revert members of `branch_types`). -/
inductive NodeTy where
  | entrypoint
  | ifNode
  | requireNode
  | ret
  | expr
  | other
deriving DecidableEq, Repr

/-- An element of `node.variables_read` / `node.variables_written`: a state
variable, an indexed reference (anything with `variable_left`/`variable_right`,
accepted by `is_index_var`), or some local variable. -/
inductive VRef where
  | sv (s : StateVar)
  | idx (base : StateVar) (key : String)
  | loc (name : String)
deriving DecidableEq, Repr

mutual
/-- A slither `Function`, restricted to the attributes the detector reads.
`contract_name` models `contract_id(contract_declarer)`;
`has_public_lastBalance` models the `functions_declared` scan for a public
`lastBalance` getter; `entry_id` is `entry_point.node_id` when present. -/
inductive FnInfo where
  | mk (full_name name : String) (is_constructor : Bool)
      (visibility state_mutability contract_name : String)
      (has_public_lastBalance : Bool)
      (params : List String) (entry_id : Option Nat) (nodes : List Node)

/-- A slither CFG `Node`.  `obj_id` models Python `id(node)` (a unique tag),
`sons` holds the node ids of the intra-procedural successors. -/
inductive Node where
  | mk (node_id obj_id : Nat) (ty : NodeTy)
      (vread vwritten : List VRef) (irs : List IROp) (sons : List Nat)

/-- A slithir operation, restricted to what the detector inspects:
`assign lv rv lvIdx` is an `Assignment` with canonical lvalue/rvalue texts
(`lvIdx` set when the lvalue is an indexed reference); `index` is an `Index`
operation (the one slithir op with `variable_left`/`variable_right`);
`call internal callee function_name dest args lvName` is an
`InternalCall`/`HighLevelCall` (with the resolved callee when one exists and
the destination's canonical name when known); `opLv` is any other
`OperationWithLValue`. -/
inductive IROp where
  | assign (lv rv : String) (lvIdx : Option (StateVar × String))
  | index (left : StateVar) (right : String)
  | call (internal : Bool) (callee : Option FnInfo) (function_name : String)
      (dest : Option String) (args : List String) (lvName : Option String)
  | opLv (lvName : String) (lvIdx : Option (StateVar × String))
  | otherOp
end

def FnInfo.full_name : FnInfo → String
  | .mk fn _ _ _ _ _ _ _ _ _ => fn

def FnInfo.name : FnInfo → String
  | .mk _ n _ _ _ _ _ _ _ _ => n

def FnInfo.is_constructor : FnInfo → Bool
  | .mk _ _ c _ _ _ _ _ _ _ => c

def FnInfo.visibility : FnInfo → String
  | .mk _ _ _ v _ _ _ _ _ _ => v

def FnInfo.state_mutability : FnInfo → String
  | .mk _ _ _ _ sm _ _ _ _ _ => sm

def FnInfo.contract_name : FnInfo → String
  | .mk _ _ _ _ _ cn _ _ _ _ => cn

def FnInfo.has_public_lastBalance : FnInfo → Bool
  | .mk _ _ _ _ _ _ b _ _ _ => b

def FnInfo.params : FnInfo → List String
  | .mk _ _ _ _ _ _ _ ps _ _ => ps

def FnInfo.entry_id : FnInfo → Option Nat
  | .mk _ _ _ _ _ _ _ _ e _ => e

def FnInfo.nodes : FnInfo → List Node
  | .mk _ _ _ _ _ _ _ _ _ ns => ns

def Node.node_id : Node → Nat
  | .mk i _ _ _ _ _ _ => i

def Node.obj_id : Node → Nat
  | .mk _ o _ _ _ _ _ => o

def Node.ty : Node → NodeTy
  | .mk _ _ t _ _ _ _ => t

def Node.vread : Node → List VRef
  | .mk _ _ _ r _ _ _ => r

def Node.vwritten : Node → List VRef
  | .mk _ _ _ _ w _ _ => w

def Node.irs : Node → List IROp
  | .mk _ _ _ _ _ irs _ => irs

def Node.sons : Node → List Nat
  | .mk _ _ _ _ _ _ s => s

/-- The lvalue of an `OperationWithLValue` when it is an indexed reference
(`is_index_var(ir.lvalue)`). -/
def IROp.lvIdx : IROp → Option (StateVar × String)
  | .assign _ _ li => li
  | .opLv _ li => li
  | _ => none

/-- `getattr(ir.lvalue, "name", "")` for an `OperationWithLValue` (an `Index`
operation's lvalue is a fresh `REF_k` reference variable). -/
def IROp.lvalueName : IROp → Option String
  | .assign lv _ _ => some lv
  | .index _ _ => some "REF"
  | .call _ _ _ _ _ lv => lv
  | .opLv n _ => some n
  | .otherOp => none

/-- Truthiness of `getattr(ir, "lvalue", None)`. -/
def IROp.truthyLvalue : IROp → Bool
  | .assign lv _ _ => lv ≠ ""
  | .index _ _ => true
  | .call _ _ _ _ _ lv => (match lv with | some s => s ≠ "" | none => false)
  | .opLv n _ => n ≠ ""
  | .otherOp => false

def IROp.isCall : IROp → Bool
  | .call _ _ _ _ _ _ => true
  | _ => false

/-- `branch_types`: `NodeType.IF` plus the require/assert/revert node kinds. -/
def isBranchTy (t : NodeTy) : Bool := t == NodeTy.ifNode || t == NodeTy.requireNode

/-! ### Association-list primitives (Python dict/set with insertion order) -/

def alistGet {κ β : Type} [DecidableEq κ] (l : List (κ × β)) (k : κ) : Option β :=
  match l with
  | [] => none
  | (k0, b) :: rest => if k0 = k then some b else alistGet rest k

/-- `d[k] = b` (replace in place, or append a new key). -/
def alistSet {κ β : Type} [DecidableEq κ] : List (κ × β) → κ → β → List (κ × β)
  | [], k, b => [(k, b)]
  | (k0, b0) :: rest, k, b =>
      if k0 = k then (k0, b) :: rest else (k0, b0) :: alistSet rest k b

/-- `set.add`: append if absent. -/
def addToList {α : Type} [DecidableEq α] (l : List α) (x : α) : List α :=
  if x ∈ l then l else l ++ [x]

def addAllToList {α : Type} [DecidableEq α] (l : List α) (xs : List α) : List α :=
  xs.foldl addToList l

/-- `defaultdict(set)[k].add(x)`. -/
def alistAdd {κ α : Type} [DecidableEq κ] [DecidableEq α] :
    List (κ × List α) → κ → α → List (κ × List α)
  | [], k, x => [(k, [x])]
  | (k0, xs) :: rest, k, x =>
      if k0 = k then (k0, addToList xs x) :: rest else (k0, xs) :: alistAdd rest k x

/-! ### The alias registry (`alias.py`)

`ALIAS_REG` is a module-level `AliasRegistry()` singleton with process
lifetime; the registry value is threaded explicitly through the model. -/

/-- `AliasKey(addr, selector, caller)`. -/
structure AliasKey where
  addr : String
  selector : String
  caller : String
deriving DecidableEq, Repr

/-- `AliasRegistry._canon`: `AliasKey((addr or "self").lower(), selector.lower(),
caller_fn_full.split(".")[0])`. -/
def canonAliasKey (addr : Option String) (selector caller_fn_full : String) : AliasKey :=
  ⟨pyLower (pyOr addr "self"), pyLower selector, headBeforeDot caller_fn_full⟩

/-- `AliasRegistry`: `_key_to_var` plus the (write-only) `_var_to_keys` map. -/
structure Registry where
  key_to_var : List (AliasKey × Var)
  var_to_keys : List (Var × List AliasKey)
deriving DecidableEq, Repr

def emptyRegistry : Registry := ⟨[], []⟩

/-- `AliasRegistry.get_or_create`.  Both call sites (`sdg.py` lines 244 and
412-415) pass `lambda: ExternalStateVar(selector, addr)` with the same
`selector`/`addr` arguments that form the key, so the wrapper constructor is
inlined as `mkExternalStateVar selector addr`. -/
def get_or_create (r : Registry) (addr : Option String) (selector caller_fn_full : String) :
    Registry × Var :=
  match alistGet r.key_to_var (canonAliasKey addr selector caller_fn_full) with
  | some v =>
      (⟨r.key_to_var, alistAdd r.var_to_keys v (canonAliasKey addr selector caller_fn_full)⟩, v)
  | none =>
      (⟨r.key_to_var ++ [(canonAliasKey addr selector caller_fn_full, mkExternalStateVar selector addr)],
        alistAdd r.var_to_keys (mkExternalStateVar selector addr)
          (canonAliasKey addr selector caller_fn_full)⟩,
       mkExternalStateVar selector addr)

/-! ### The SDG (`sdg.py`, class `SDG`) -/

/-- One entry of `SDG.blocks`: `{"reads": ..., "writes": ..., "succ": ...}`. -/
structure BlockInfo where
  reads : List Var
  writes : List Var
  succ : List BB
deriving DecidableEq, Repr

def emptyBlock : BlockInfo := ⟨[], [], []⟩

/-- The SDG state: `blocks`, `var_reads`, `var_writes`, `fn_lookup`,
`branch_groups`, `var_to_branchgroups`, `fn_returns`.  `fn_returns` is keyed
by the function's `full_name` (the model's identity for function objects). -/
structure SDG where
  blocks : List (BB × BlockInfo)
  var_reads : List (Var × List BB)
  var_writes : List (Var × List BB)
  fn_lookup : List (String × FnInfo)
  branch_groups : List (Nat × List Var)
  var_to_branchgroups : List (Var × List Nat)
  fn_returns : List (String × List Var)

def emptySDG : SDG := ⟨[], [], [], [], [], [], []⟩

/-- The build state: the per-run SDG plus the process-global `ALIAS_REG`. -/
structure BuildState where
  sdg : SDG
  reg : Registry

/-- The environment ablation toggles read at import time
(`NOOP_WRITE_FILTER`, `REQUIRE_SAME_SLOT_KEY`, `PROMOTE_MAPPING_BASE`). -/
structure Config where
  noopWriteFilter : Bool
  requireSameSlotKey : Bool
  promoteMappingBase : Bool

/-- The default environment: no-op-write filtering and key-overlap checking
on, mapping-base promotion off. -/
def defaultCfg : Config := ⟨true, true, false⟩

/-- An inert function object, used as the (unreachable) default of
`fn_lookup` lookups that would raise `KeyError` in Python. -/
def defaultFn : FnInfo := .mk "" "" false "" "" "" false [] none []

/-- `sdg.fn_lookup[name]` (total via the inert default). -/
def fnOf (sdg : SDG) (name : String) : FnInfo := (alistGet sdg.fn_lookup name).getD defaultFn

/-- `sdg.blocks.get(bid, {})` (with empty read/write/succ defaults). -/
def blockOf (sdg : SDG) (bid : BB) : BlockInfo := (alistGet sdg.blocks bid).getD emptyBlock

/-- `sdg.var_reads.get(v, set())`. -/
def readsOfVar (sdg : SDG) (v : Var) : List BB := (alistGet sdg.var_reads v).getD []

/-- `sdg.var_to_branchgroups.get(v, set())`. -/
def bgOfVar (sdg : SDG) (v : Var) : List Nat := (alistGet sdg.var_to_branchgroups v).getD []

/-- `node_by_id`: the first node of `fn` with the given `node_id`. -/
def node_by_id (fn : FnInfo) (node_id : Nat) : Option Node :=
  fn.nodes.find? (fun n => n.node_id == node_id)

/-- Constructor/initializer test used throughout `stale_read_pairs`:
`fn.is_constructor or fn.name.startswith("initialize")`. -/
def initLike (f : FnInfo) : Bool := f.is_constructor || pyStartsWith f.name "initialize"

/-- `is_view_only` (the `state_mutability` branch of the version split). -/
def is_view_only (f : FnInfo) : Bool :=
  f.state_mutability == "view" || f.state_mutability == "pure"

/-! ### No-op-write detection (`sdg.py` lines 49-98) -/

/-- The `(lvalue, rvalue)` texts of the `Assignment` operations of a node. -/
def assignsOf (n : Node) : List (String × String) :=
  n.irs.filterMap (fun ir =>
    match ir with
    | .assign lv rv _ => some (lv, rv)
    | _ => none)

/-- `build_defs_map`: `defs.setdefault(lv, rv)` for each assignment with a
truthy lvalue text. -/
def build_defs_map (n : Node) : List (String × String) :=
  (assignsOf n).foldl
    (fun defs p =>
      if p.1 ≠ "" ∧ (alistGet defs p.1).isNone then defs ++ [p] else defs)
    []

/-- `resolve_alias`: follow at most `max_hops` alias definitions inside the
node, stopping on a cycle or a falsy right-hand side. -/
def resolve_alias_aux (defs : List (String × String)) : Nat → List String → String → String
  | 0, _, cur => cur
  | k + 1, seen, cur =>
      if cur ∈ seen then cur
      else
        match alistGet defs cur with
        | none => cur
        | some nxt => if nxt = "" then cur else resolve_alias_aux defs k (cur :: seen) nxt

def resolve_alias (txt : String) (defs : List (String × String)) : String :=
  resolve_alias_aux defs 3 [] txt

/-- `var_key_txt`. -/
def varKeyTxt (v : Var) : String :=
  let t := v.vname
  if t ≠ "" ∧ t ≠ "none" then t else v.vstr

/-- The assignment scan of `is_self_copy_write`: skip assignments to other
lvalues; an assignment to `x` whose right-hand side is (an alias of) `x`
records a write; any other assignment to `x` returns `False` immediately. -/
def selfCopyLoop (x : String) (defs : List (String × String)) :
    List (String × String) → Bool → Bool
  | [], found => found
  | (lv, rv) :: rest, found =>
      if lv ≠ x then selfCopyLoop x defs rest found
      else if rv = x then selfCopyLoop x defs rest true
      else if resolve_alias rv defs = x then selfCopyLoop x defs rest true
      else false

/-- `is_self_copy_write` (DivertScan §4.2.3 no-op write detection). -/
def is_self_copy_write (v : Var) (n : Node) : Bool :=
  if isExtVar v then false
  else selfCopyLoop (varKeyTxt v) (build_defs_map n) (assignsOf n) false

/-! ### Mapping-slot key agreement (`sdg.py` lines 40-47 and 552-556) -/

/-- The base mappings with at least one slot entry in a read/write list. -/
def slotBases (l : List Var) : List StateVar :=
  l.filterMap (fun v =>
    match v with
    | .slot b _ => some b
    | _ => none)

/-- The keys recorded for base `b` in a read/write list (`slot_keys_at`). -/
def slotKeysOf (l : List Var) (b : StateVar) : List String :=
  l.filterMap (fun v =>
    match v with
    | .slot b0 k => if b0 = b then some k else none
    | _ => none)

/-- The `REQUIRE_SAME_SLOT_KEY` drop condition of `stale_read_pairs`: the
writer's slot writes and the reader's slot reads share at least one base
mapping, and for every common base the key sets are disjoint. -/
def slotOverlapSkip (sdg : SDG) (w r : BB) : Bool :=
  let wl := (blockOf sdg w).writes
  let rl := (blockOf sdg r).reads
  let common := (slotBases wl).filter (fun b => decide (b ∈ slotBases rl))
  !common.isEmpty &&
    common.all (fun b => (slotKeysOf wl b).all (fun k => !decide (k ∈ slotKeysOf rl b)))

/-! ### `read_affects_state` and `called_from_stateful` (`sdg.py` lines 139-146, 469-493) -/

/-- `var_used(node, v)`: `v in node.state_variables_read or v in
node.variables_read`.  Only a plain state variable can compare equal to a
front-end variable reference (`MappingSlotVar.__eq__` and
`ExternalStateVar.__eq__` require their own class). -/
def varUsedNode (n : Node) (v : Var) : Bool :=
  match v with
  | .sv s => decide (VRef.sv s ∈ n.vread)
  | _ => false

/-- `v in node.variables_written`, with the same class restriction. -/
def varWrittenNode (n : Node) (v : Var) : Bool :=
  match v with
  | .sv s => decide (VRef.sv s ∈ n.vwritten)
  | _ => false

/-- Push the unseen sons onto the worklist, marking them seen (the
`for s in cur.sons: if s not in seen: ...` loop). -/
def pushUnseenNat (sons : List Nat) (seen q : List Nat) : List Nat × List Nat :=
  sons.foldl
    (fun acc s => if s ∈ acc.1 then acc else (acc.1 ++ [s], acc.2 ++ [s]))
    (seen, q)

/-- The worklist loop of `read_affects_state`.  Each iteration pops one node
id; ids are marked seen when pushed, so the loop performs at most
`1 + Σ |sons|` iterations — the fuel passed by `read_affects_state` dominates
this bound. -/
def rasAux (fn : FnInfo) (v : Var) (startId : Nat) : Nat → List Nat → List Nat → Bool
  | 0, _, _ => false
  | _ + 1, [], _ => false
  | fuel + 1, cId :: rest, seen =>
      match node_by_id fn cId with
      | none => rasAux fn v startId fuel rest seen
      | some cur =>
          if cId ≠ startId && varUsedNode cur v then true
          else if !cur.vwritten.isEmpty then true
          else if cId ≠ startId && varWrittenNode cur v then rasAux fn v startId fuel rest seen
          else
            let sq := pushUnseenNat cur.sons seen rest
            rasAux fn v startId fuel sq.2 sq.1

def rasFuel (fn : FnInfo) : Nat :=
  (fn.nodes.foldl (fun a n => a + n.sons.length) 0) + 2

/-- `read_affects_state(sdg, read_bid, v)`. -/
def read_affects_state (sdg : SDG) (read_bid : BB) (v : Var) : Bool :=
  let fn := fnOf sdg read_bid.1
  match node_by_id fn read_bid.2 with
  | none => false
  | some start => rasAux fn v start.node_id (rasFuel fn) [start.node_id] [start.node_id]

/-- Does a node contain a call operation whose resolved callee is the function
named `target`?  (`ir.function == fn`, function identity by `full_name`.) -/
def nodeCallsFn (n : Node) (target : String) : Bool :=
  n.irs.any (fun ir =>
    match ir with
    | .call _ (some cf) _ _ _ _ => cf.full_name == target
    | _ => false)

/-- `called_from_stateful(fn, sdg)`: some non-view/pure function in
`fn_lookup` calls `fn`. -/
def called_from_stateful (fnFull : String) (sdg : SDG) : Bool :=
  sdg.fn_lookup.any (fun e => !is_view_only e.2 && e.2.nodes.any (fun n => nodeCallsFn n fnFull))

/-! ### The pair enumerator `stale_read_pairs` (`sdg.py` lines 495-568) -/

/-- A yielded tuple `(write_bid, read_bid, variable, pattern)`. -/
abbrev SRPair := BB × BB × Var × String

/-- A deduplication key `(write_fn, read_fn, v)`. -/
abbrev SRKey := String × String × Var

/-- The pattern a pair leaves the enumerator with: `stale_read` when the
write block id precedes the read block id, rewritten to `cross_tx_stale_read`
when additionally the two function names differ, `destructive_write`
otherwise. -/
def crossPattern (w r : BB) : String :=
  if bbLt w r then (if w.1 == r.1 then "stale_read" else "cross_tx_stale_read")
  else "destructive_write"

/-- The state-affecting gate of `stale_read_pairs`: trivially passed when the
variable (or, for a mapping slot, its base) sits in some branch group,
otherwise decided by `read_affects_state` or `called_from_stateful`. -/
def srpAffects (sdg : SDG) (v : Var) (r : BB) : Bool :=
  if !(bgOfVar sdg v ++
        (match v with
         | .slot base _ => bgOfVar sdg (Var.sv base)
         | _ => [])).isEmpty
  then true
  else read_affects_state sdg r v || called_from_stateful (fnOf sdg r.1).full_name sdg

/-- One `(w_bid, r_bid)` iteration of the inner loops of `stale_read_pairs`:
the duplicate-key, constructor-read, state-affecting, write-block-reads,
no-op-write and slot-key-overlap gates, then the pattern classification and
the cross-transaction rewrite. -/
def srpStep (cfg : Config) (sdg : SDG) (v : Var) (reads : List BB)
    (yielded : List SRKey) (w r : BB) : List SRKey × Option SRPair :=
  if decide ((w.1, r.1, v) ∈ yielded) then (yielded, none)
  else if initLike (fnOf sdg r.1) then (yielded, none)
  else if !srpAffects sdg v r then (yielded, none)
  else if decide (w ∈ reads) then (yielded, none)
  else if cfg.noopWriteFilter &&
      (match node_by_id (fnOf sdg w.1) w.2 with
       | some wn => is_self_copy_write v wn
       | none => false)
    then (yielded, none)
  else if cfg.requireSameSlotKey && slotOverlapSkip sdg w r then (yielded, none)
  else ((w.1, r.1, v) :: yielded, some (w, r, v, crossPattern w r))

/-- The inner `for r_bid in reads` loop for a fixed writer. -/
def srpReads (cfg : Config) (sdg : SDG) (v : Var) (reads : List BB) (w : BB) :
    List BB → List SRKey → List SRKey × List SRPair
  | [], y => (y, [])
  | r :: rs, y =>
      let s := srpStep cfg sdg v reads y w r
      let t := srpReads cfg sdg v reads w rs s.1
      (t.1, s.2.toList ++ t.2)

/-- The outer `for w_bid in writes` loop. -/
def srpWrites (cfg : Config) (sdg : SDG) (v : Var) (reads : List BB) :
    List BB → List SRKey → List SRKey × List SRPair
  | [], y => (y, [])
  | w :: ws, y =>
      let h := srpReads cfg sdg v reads w reads y
      let t := srpWrites cfg sdg v reads ws h.1
      (t.1, h.2 ++ t.2)

/-- The per-variable body of `stale_read_pairs`: strip constructor and
initializer writers, skip constants/immutables/role ids, require at least one
read, then run the write/read loops (the redundant all-initializer recheck of
the already-filtered writer set is dropped as dead: `writes` is non-empty and
contains no initializer writer at that point). -/
def srpForVar (cfg : Config) (sdg : SDG) (v : Var) (wl : List BB) : List SRPair :=
  if (wl.filter (fun w => !initLike (fnOf sdg w.1))).isEmpty then []
  else if (match v with
           | .sv s => is_const s || is_role_bytes32 s
           | _ => false)
    then []
  else if (readsOfVar sdg v).isEmpty then []
  else
    (srpWrites cfg sdg v (readsOfVar sdg v)
      (wl.filter (fun w => !initLike (fnOf sdg w.1))) []).2

/-- `stale_read_pairs(sdg)`, iterating `sdg.var_writes` in insertion order.
(The `v is None` guard is unrepresentable: the model's variable universe has
no `None`.) -/
def srpOuter (cfg : Config) (sdg : SDG) : List (Var × List BB) → List SRPair
  | [] => []
  | (v, wl) :: rest => srpForVar cfg sdg v wl ++ srpOuter cfg sdg rest

def stale_read_pairs (cfg : Config) (sdg : SDG) : List SRPair :=
  srpOuter cfg sdg sdg.var_writes

/-! ### `SDG.add_block` (`sdg.py` lines 208-423) -/

/-- `STORAGE_TO_SELECTOR`. -/
def STORAGE_TO_SELECTOR (n : String) : Option String :=
  if n == "_lastBalance" then some "lastbalance"
  else if n == "balances" then some "balanceof"
  else if n == "_balances" then some "balanceof"
  else if n == "balanceOf" then some "balanceof"
  else none

/-- `EXT_READS`. -/
def EXT_READS : List String := ["balanceof", "balanceof(address)", "totalsupply", "lastbalance"]

/-- `EXT_WRITES`. -/
def EXT_WRITES : List String := ["transfer", "transferfrom", "mint", "burn", "sync"]

/-- The `writes_storage` scan of the `fn_returns` summarization: some node of
the function writes a state variable directly, or has an `OperationWithLValue`
whose lvalue is an indexed reference. -/
def nodeWritesStorage (n : Node) : Bool :=
  n.vwritten.any (fun vr =>
    match vr with
    | .sv _ => true
    | _ => false)
  || n.irs.any (fun ir => ir.lvIdx.isSome)

def fnWritesStorage (f : FnInfo) : Bool := f.nodes.any nodeWritesStorage

/-- The `expr_vars` set of the `fn_returns` summarization: state variables
read at `RETURN` nodes, plus the mapping/array slots of their `Index`
operations. -/
def retExprVars (f : FnInfo) : List Var :=
  (f.nodes.filter (fun n => n.ty == NodeTy.ret)).foldl
    (fun acc ret =>
      let acc2 := addAllToList acc
        (ret.vread.filterMap (fun vr =>
          match vr with
          | .sv s => some (Var.sv s)
          | _ => none))
      addAllToList acc2
        (ret.irs.filterMap (fun ir =>
          match ir with
          | .index l r => some (Var.slot l r)
          | _ => none)))
    []

/-- The `fn_returns` registration step of `add_block`: a first-visited
function that writes no storage and whose return expressions mention at least
two distinct variables is recorded as a pure multi-return function. -/
def registerFnReturns (sdg : SDG) (fn : FnInfo) : SDG :=
  if (alistGet sdg.fn_returns fn.full_name).isSome then sdg
  else if fnWritesStorage fn then sdg
  else if (fn.nodes.filter (fun n => n.ty == NodeTy.ret)).isEmpty then sdg
  else if 2 ≤ (retExprVars fn).length then
    { sdg with fn_returns := sdg.fn_returns ++ [(fn.full_name, retExprVars fn)] }
  else sdg

/-- `next((f for f in self.fn_lookup.values() if f.name == callee_name), None)`. -/
def firstFnWithName (sdg : SDG) (nm : String) : Option FnInfo :=
  (sdg.fn_lookup.find? (fun e => e.2.name == nm)).map (fun e => e.2)

/-- The call scan inside the branch-group step: inline the `fn_returns`
summaries of resolved callees (or, for unresolved callees, of the first
function in `fn_lookup` with the call's text name) into the conditional's
variable set and into the node's read set. -/
def condCallFold (sdg : SDG) (irs : List IROp) (cv reads : List Var) : List Var × List Var :=
  irs.foldl
    (fun acc ir =>
      match ir with
      | .call _ (some cf) _ _ _ _ =>
          (match alistGet sdg.fn_returns cf.full_name with
           | some rvs => (addAllToList acc.1 rvs, addAllToList acc.2 rvs)
           | none => acc)
      | .call _ none fname _ _ _ =>
          (match firstFnWithName sdg fname with
           | some cf2 =>
               (match alistGet sdg.fn_returns cf2.full_name with
                | some rvs => (addAllToList acc.1 rvs, addAllToList acc.2 rvs)
                | none => acc)
           | none => acc)
      | _ => acc)
    (cv, reads)

/-- Registration of one conditional variable under a branch-group id,
promoting its mapping base only under `PROMOTE_MAPPING_BASE`. -/
def bgStep (cfg : Config) (gid : Nat) (s : SDG) (cv : Var) : SDG :=
  let s1 := { s with
    branch_groups := alistAdd s.branch_groups gid cv,
    var_to_branchgroups := alistAdd s.var_to_branchgroups cv gid }
  match cv, cfg.promoteMappingBase with
  | Var.slot base _, true =>
      { s1 with
        branch_groups := alistAdd s1.branch_groups gid (Var.sv base),
        var_to_branchgroups := alistAdd s1.var_to_branchgroups (Var.sv base) gid }
  | _, _ => s1

/-- The branch-group registration: when at least two variables are involved
in the conditional, register every one of them under the fresh group id
`id(node)`. -/
def registerBG (cfg : Config) (sdg : SDG) (gid : Nat) (cvs : List Var) : SDG :=
  if 2 ≤ cvs.length then cvs.foldl (bgStep cfg gid) sdg else sdg

/-- `_subst_returns_with_args`: substitute callee parameter names with caller
argument expressions inside mapping-slot keys. -/
def substReturnsWithArgs (cf : FnInfo) (args : List String) (rvs : List Var) : List Var :=
  let subst := (cf.params.zip args).foldl (fun m p => alistSet m p.1 p.2) []
  rvs.foldl
    (fun l rv =>
      match rv with
      | Var.slot b k => addToList l (Var.slot b ((alistGet subst k).getD k))
      | _ => addToList l rv)
    []

/-- Update a block's successor set in place (`self.blocks[bid]["succ"].add`). -/
def blocksAddSucc (bs : List (BB × BlockInfo)) (bid target : BB) : List (BB × BlockInfo) :=
  match alistGet bs bid with
  | none => bs
  | some bi => alistSet bs bid { bi with succ := addToList bi.succ target }

/-- The accumulator of the per-call-operation loop of `add_block`. -/
structure CallAcc where
  sdg : SDG
  reg : Registry
  reads : List Var
  writes : List Var
  succ : List BB

/-- Step (1) of the per-call loop of `add_block`: when the callee has an
entry point, add the call edge to its entry block, create empty placeholder
entry/exit blocks as needed, record the callee in `fn_lookup`, and wire every
callee exit (its `RETURN` nodes, or its leaf nodes when it has none) back to
the caller block. -/
def callEdgeStep (acc : CallAcc) (block_id : BB) (callee : Option FnInfo) : CallAcc :=
  match callee with
  | some cf =>
      (match cf.entry_id with
       | some eid =>
           let entry_bid : BB := (cf.full_name, eid)
           let succ1 := addToList acc.succ entry_bid
           let blocks1 :=
             if (alistGet acc.sdg.blocks entry_bid).isSome then acc.sdg.blocks
             else acc.sdg.blocks ++ [(entry_bid, emptyBlock)]
           let fl1 :=
             if (alistGet acc.sdg.fn_lookup cf.full_name).isSome then acc.sdg.fn_lookup
             else acc.sdg.fn_lookup ++ [(cf.full_name, cf)]
           let rets := cf.nodes.filter (fun n => n.ty == NodeTy.ret)
           let exits := if rets.isEmpty then cf.nodes.filter (fun n => n.sons.isEmpty) else rets
           let blocks2 := exits.foldl
             (fun bs en =>
               let exit_bid : BB := (cf.full_name, en.node_id)
               let bs1 :=
                 if (alistGet bs exit_bid).isSome then bs
                 else bs ++ [(exit_bid, emptyBlock)]
               blocksAddSucc bs1 exit_bid block_id)
             blocks1
           { acc with
             sdg := { acc.sdg with blocks := blocks2, fn_lookup := fl1 },
             succ := succ1 }
       | none => acc)
  | none => acc

/-- Step (2): inline `fn_returns` summaries of the (resolved or text-matched)
callee into the caller's read set, with parameter substitution. -/
def callSummaryStep (acc : CallAcc) (callee : Option FnInfo) (fname : String)
    (args : List String) : CallAcc :=
  match callee with
  | some cf =>
      (match alistGet acc.sdg.fn_returns cf.full_name with
       | some rvs =>
           { acc with reads := addAllToList acc.reads (substReturnsWithArgs cf args rvs) }
       | none => acc)
  | none =>
      (match firstFnWithName acc.sdg fname with
       | some cf2 =>
           (match alistGet acc.sdg.fn_returns cf2.full_name with
            | some rvs =>
                { acc with
                  reads := addAllToList acc.reads (substReturnsWithArgs cf2 args rvs) }
            | none => acc)
       | none => acc)

/-- Step (3): for a recognised external selector, record the aliased external
state variable as a read and/or a write through the alias registry. -/
def callExtStep (acc : CallAcc) (fn : FnInfo) (fname : String) (dest : Option String) : CallAcc :=
  if decide (pyLower (headBeforeParen fname) ∈ EXT_READS)
      || decide (pyLower (headBeforeParen fname) ∈ EXT_WRITES) then
    let pr := get_or_create acc.reg dest (pyLower (headBeforeParen fname)) fn.full_name
    let reads3 :=
      if decide (pyLower (headBeforeParen fname) ∈ EXT_READS) then addToList acc.reads pr.2
      else acc.reads
    let writes3 :=
      if decide (pyLower (headBeforeParen fname) ∈ EXT_WRITES) then addToList acc.writes pr.2
      else acc.writes
    { acc with reg := pr.1, reads := reads3, writes := writes3 }
  else acc

/-- One call operation of the `for ir in node.irs` loop of `add_block`:
the three steps above in sequence; non-call operations are skipped. -/
def processCallIr (acc : CallAcc) (fn : FnInfo) (block_id : BB) (ir : IROp) : CallAcc :=
  match ir with
  | .call _internal callee fname dest args _lv =>
      callExtStep (callSummaryStep (callEdgeStep acc block_id callee) callee fname args)
        fn fname dest
  | _ => acc

/-- `SDG.add_block(node)` (the node's enclosing function is passed
explicitly; Python reaches it through `node.function`).  Returns immediately
when the block id is already present. -/
def add_block (cfg : Config) (st : BuildState) (fn : FnInfo) (node : Node) : BuildState :=
  let block_id : BB := (fn.full_name, node.node_id)
  if (alistGet st.sdg.blocks block_id).isSome then st
  else
    let reads0 : List Var := node.vread.foldl
      (fun l vr =>
        match vr with
        | .sv s => addToList l (Var.sv s)
        | .idx b k => addToList l (Var.slot b k)
        | .loc _ => l)
      []
    let writes0 : List Var := node.vwritten.foldl
      (fun l vr =>
        match vr with
        | .sv s => addToList l (Var.sv s)
        | .idx b k => addToList l (Var.slot b k)
        | .loc _ => l)
      []
    let writes1 := node.irs.foldl
      (fun l ir =>
        match ir.lvIdx with
        | some bk => addToList l (Var.slot bk.1 bk.2)
        | none => l)
      writes0
    let rw := writes1.foldl
      (fun (acc : Registry × List Var) w =>
        match w with
        | Var.sv s =>
            (match STORAGE_TO_SELECTOR s.name with
             | some sel =>
                 let pr := get_or_create acc.1 (some fn.contract_name) sel fn.full_name
                 (pr.1, addToList acc.2 pr.2)
             | none => acc)
        | _ => acc)
      (st.reg, writes1)
    let sdg1 := registerFnReturns st.sdg fn
    let cr :=
      if isBranchTy node.ty then
        let cv0 := node.vread.foldl
          (fun l vr =>
            match vr with
            | .sv s => addToList l (Var.sv s)
            | _ => l)
          []
        let cv1 := node.vread.foldl
          (fun l vr =>
            match vr with
            | .idx b k => addToList l (Var.slot b k)
            | _ => l)
          cv0
        let cv2 := reads0.foldl (fun l v => if isExtVar v then addToList l v else l) cv1
        let cvr := condCallFold sdg1 node.irs cv2 reads0
        (registerBG cfg sdg1 node.obj_id cvr.1, cvr.2)
      else (sdg1, reads0)
    let writes2 := node.irs.foldl
      (fun l ir =>
        match ir.lvalueName with
        | some nm =>
            if nm == "balances" || nm == "_balances" || nm == "balanceOf" then
              addToList l (mkExternalStateVar "balanceof" (some fn.contract_name))
            else l
        | none => l)
      rw.2
    let writes3 :=
      if writes2.any (fun w =>
           match w with
           | Var.sv s => s.name == "_lastBalance"
           | _ => false)
         && fn.has_public_lastBalance then
        addToList writes2 (mkExternalStateVar "lastbalance" (some fn.contract_name))
      else writes2
    let succ0 := node.sons.foldl (fun l s => addToList l ((fn.full_name, s) : BB)) []
    let accF := node.irs.foldl (fun acc ir => processCallIr acc fn block_id ir)
      (⟨cr.1, rw.1, cr.2, writes3, succ0⟩ : CallAcc)
    let sdgC := accF.sdg
    let blocks4 := alistSet sdgC.blocks block_id ⟨accF.reads, accF.writes, accF.succ⟩
    let fl4 := alistSet sdgC.fn_lookup fn.full_name fn
    let vr4 := accF.reads.foldl (fun m v => alistAdd m v block_id) sdgC.var_reads
    let vw4 := accF.writes.foldl (fun m v => alistAdd m v block_id) sdgC.var_writes
    ⟨{ sdgC with blocks := blocks4, fn_lookup := fl4, var_reads := vr4, var_writes := vw4 },
     accF.reg⟩

/-- `build_sdg(compilation_unit)`: a fresh `SDG()` is populated by visiting
every node of every declared function; the alias registry is the module-level
`ALIAS_REG`, so the registry state entering the run is whatever previous runs
of the same process left behind. -/
def build_sdg (cfg : Config) (reg : Registry) (cu : List FnInfo) : BuildState :=
  cu.foldl
    (fun st f => f.nodes.foldl (fun st2 n => add_block cfg st2 f n) st)
    ⟨emptySDG, reg⟩

/-! ### Detector-side helpers (`inconsistent_state.py`) -/

/-- `node_of(bid, sdg)`: resolve a block id to its CFG node. -/
def node_of (sdg : SDG) (bid : BB) : Option Node :=
  match alistGet sdg.fn_lookup bid.1 with
  | none => none
  | some fn => node_by_id fn bid.2

/-- `is_branch_node`. -/
def is_branch_node (n : Node) : Bool := isBranchTy n.ty

/-- `is_external_call_node(node, sdg)`: a `HighLevelCall` with no resolved
callee, or one resolved to a function of a different declaring contract
(contract identity modelled by its canonical name). -/
def is_external_call_node (sdg : SDG) (bid : BB) (n : Node) : Bool :=
  match alistGet sdg.fn_lookup bid.1 with
  | none => false
  | some fn =>
      n.irs.any (fun ir =>
        match ir with
        | .call internal callee _ _ _ _ =>
            !internal &&
              (match callee with
               | none => true
               | some cf => cf.contract_name ≠ fn.contract_name)
        | _ => false)

/-- `is_critical_sink_bid`: a branch predicate or an external call site. -/
def is_critical_sink_bid (sdg : SDG) (bid : BB) : Bool :=
  match node_of sdg bid with
  | none => false
  | some n => is_branch_node n || is_external_call_node sdg bid n

/-- `block_reads_var(bid, sdg, var)`: the block reads the variable, or (for a
mapping slot) reads its base mapping. -/
def block_reads_var (sdg : SDG) (bid : BB) (v : Var) : Bool :=
  let r := (blockOf sdg bid).reads
  if decide (v ∈ r) then true
  else
    match v with
    | .slot base _ => decide (Var.sv base ∈ r)
    | _ => false

/-- `call_edges_any` as built in `_detect` (lines 881-891): one edge per
resolved call operation, keyed by the caller's `full_name`. -/
def call_edges_any (sdg : SDG) : List (String × List String) :=
  sdg.fn_lookup.foldl
    (fun acc e =>
      e.2.nodes.foldl
        (fun acc2 n =>
          n.irs.foldl
            (fun acc3 ir =>
              match ir with
              | .call _ (some cf) _ _ _ _ => alistAdd acc3 e.2.full_name cf.full_name
              | _ => acc3)
            acc2)
        acc)
    []

/-- The reentrant-shape rewriting step of `_detect` (lines 950-959), applied
to one enumerated pair: when the two owning entries differ and one side's
function appears among the direct callees of the other, a pair still labelled
`stale_read`/`destructive_write` is relabelled to its `reentrant_*` variant. -/
def detectLabel (ca : List (String × List String)) (entryOf : BB → String)
    (sdg : SDG) (p : SRPair) : String :=
  let w := p.1
  let r := p.2.1
  let pat := p.2.2.2
  let wfull := (fnOf sdg w.1).full_name
  let rfull := (fnOf sdg r.1).full_name
  if entryOf w ≠ entryOf r
      && (decide (rfull ∈ (alistGet ca wfull).getD [])
          || decide (wfull ∈ (alistGet ca rfull).getD [])) then
    if pat == "stale_read" then "reentrant_stale_read"
    else if pat == "destructive_write" then "reentrant_destructive_write"
    else pat
  else pat

/-! ### Bounded graph traversals

`reachable_without_overwrite`, `forward_slice_hits_sink_from` and
`value_influence_hits_sensitive_sink` share one loop shape: pop a block from
a FIFO worklist (subject to the step budget), test a stop condition, then
push the not-yet-seen successors, marking them seen at push time.  The shared
loop is `bfsAux`; the three traversals instantiate its parameters. -/

structure BfsParams where
  stopAtPop : BB → Bool
  stopAtEdge : BB → Bool
  pushOk : BB → Bool

/-- `while q and (unlimited or steps < budget)`. -/
def budgetOk : Option Nat → Nat → Bool
  | none, _ => true
  | some b, steps => steps < b

/-- The successor scan of one loop iteration: early-return on a stop edge,
skip seen blocks, then (if allowed) mark seen and enqueue. -/
def scanSuccs (P : BfsParams) : List BB → List BB → List BB → Bool × List BB × List BB
  | [], seen, q => (false, seen, q)
  | nxt :: l, seen, q =>
      if P.stopAtEdge nxt then (true, seen, q)
      else if nxt ∈ seen then scanSuccs P l seen q
      else if P.pushOk nxt then scanSuccs P l (nxt :: seen) (q ++ [nxt])
      else scanSuccs P l seen q

/-- The fuelled worklist loop.  Every pushed block was unseen when pushed and
comes from a successor set of the graph, so the loop performs at most
`|all successor targets| + |initial queue|` iterations; the termination
theorems below show the result is fuel-independent beyond that bound. -/
def bfsAux (sdg : SDG) (P : BfsParams) (budget : Option Nat) :
    Nat → Nat → List BB → List BB → Bool
  | 0, _, _, _ => false
  | _ + 1, _, [], _ => false
  | fuel + 1, steps, cur :: rest, seen =>
      if budgetOk budget steps then
        if P.stopAtPop cur then true
        else
          match scanSuccs P (blockOf sdg cur).succ seen rest with
          | (true, _, _) => true
          | (false, seen2, q2) => bfsAux sdg P budget fuel (steps + 1) q2 seen2
      else false

/-- All successor targets occurring in the graph. -/
def univList (sdg : SDG) : List BB :=
  sdg.blocks.foldr (fun e a => e.2.succ ++ a) []

/-- Canonical fuel for an unbudgeted traversal. -/
def unbFuel (sdg : SDG) : Nat := (univList sdg).length + 2

/-- Canonical fuel for a budgeted traversal. -/
def travFuel (sdg : SDG) (budget : Option Nat) : Nat :=
  match budget with
  | some b => b + 1
  | none => unbFuel sdg

/-- The loop variant of `bfsAux`: unseen successor targets plus pending
queue entries.  Every iteration decreases it by exactly one, which is what
makes the canonical fuels above sufficient. -/
def bfsMeasure (sdg : SDG) (q seen : List BB) : Nat :=
  ((univList sdg).toFinset.filter (fun b => b ∉ seen)).card + q.length

/-- The loop parameters of `reachable_without_overwrite`: stop on an edge
into `dst`, never enqueue a block that overwrites `v`. -/
def rwoParams (sdg : SDG) (dst : BB) (v : Var) : BfsParams :=
  { stopAtPop := fun _ => false
    stopAtEdge := fun nxt => nxt == dst
    pushOk := fun nxt => !decide (v ∈ (blockOf sdg nxt).writes) }

/-- `reachable_without_overwrite(sdg, src_bid, dst_bid, v)`. -/
def reachable_without_overwrite (sdg : SDG) (src dst : BB) (v : Var) : Bool :=
  if src == dst then true
  else bfsAux sdg (rwoParams sdg dst v) none (unbFuel sdg) 0 [src] [src]

/-- The loop parameters of `forward_slice_hits_sink_from`: stop on a popped
block that re-reads the variable at a critical sink reachable without an
intervening overwrite. -/
def fsParams (sdg : SDG) (v : Var) (start : BB) : BfsParams :=
  { stopAtPop := fun cur =>
      decide (cur ∈ readsOfVar sdg v) && is_critical_sink_bid sdg cur
        && reachable_without_overwrite sdg start cur v
    stopAtEdge := fun _ => false
    pushOk := fun _ => true }

/-- `forward_slice_hits_sink_from(var, start_bid, sdg, budget)`. -/
def forward_slice_hits_sink_from (v : Var) (start : BB) (sdg : SDG) (budget : Option Nat) : Bool :=
  if budget == some 0 then false
  else if decide (start ∈ readsOfVar sdg v) && is_critical_sink_bid sdg start then true
  else bfsAux sdg (fsParams sdg v start) budget (travFuel sdg budget) 0 [start] [start]

/-- The loop parameters of `value_influence_hits_sensitive_sink`: stop on a
popped block whose node is a branch predicate, contains a call, or writes —
provided the block reads the variable and is reachable without overwrite. -/
def viParams (sdg : SDG) (v : Var) (start : BB) : BfsParams :=
  { stopAtPop := fun cur =>
      match node_of sdg cur with
      | none => false
      | some n =>
          (is_branch_node n && block_reads_var sdg cur v
            && reachable_without_overwrite sdg start cur v)
          || (n.irs.any IROp.isCall && block_reads_var sdg cur v
              && reachable_without_overwrite sdg start cur v)
          || ((!n.vwritten.isEmpty || n.irs.any IROp.truthyLvalue)
              && block_reads_var sdg cur v
              && reachable_without_overwrite sdg start cur v)
    stopAtEdge := fun _ => false
    pushOk := fun _ => true }

/-- `value_influence_hits_sensitive_sink(var, start_bid, sdg, budget)`. -/
def value_influence_hits_sensitive_sink (v : Var) (start : BB) (sdg : SDG)
    (budget : Option Nat) : Bool :=
  if budget == some 0 then false
  else if is_critical_sink_bid sdg start && block_reads_var sdg start v then true
  else bfsAux sdg (viParams sdg v start) budget (travFuel sdg budget) 0 [start] [start]

/-- `hits_sink`: the sink-test scheduler, dispatching on `SINK_TEST` with the
configured `DIVERGENCE_BUDGET`. -/
def hits_sink (sinkTest : String) (budget : Option Nat) (v : Var) (read_bid : BB)
    (sdg : SDG) : Bool :=
  if sinkTest == "value" then value_influence_hits_sensitive_sink v read_bid sdg budget
  else if sinkTest == "samevar" then forward_slice_hits_sink_from v read_bid sdg budget
  else true

/-- The per-pair gate sequence of `_detect`'s enumeration loop (lines
923-948): the admin-writes filter, the init-only filter, the sink gate, and
the post-init-latch filter.  The three filters that are not under
verification here are abstract predicates; a pair reaches bucketing exactly
when it passes all four gates. -/
def detectSurvivingPairs (cfg : Config) (sinkTest : String) (budget : Option Nat)
    (adminSkip initSkip latchSkip : SRPair → Bool) (sdg : SDG) : List SRPair :=
  (stale_read_pairs cfg sdg).filter
    (fun p =>
      !adminSkip p && !initSkip p
        && hits_sink sinkTest budget p.2.2.1 p.2.1 sdg && !latchSkip p)

/-! ### A spec-side reading predicate (for claim C2)

The specification's wording for the pure multi-return summary is that the
enclosing function "reads no persistent storage anywhere"; the following
definition follows those words (a refinement comparison against the
source-derived `fnWritesStorage` used by `registerFnReturns`). -/

/-- Modelled from the spec: the function reads persistent storage somewhere —
some node reads a state variable or a mapping/array slot. -/
def fnReadsStorage (f : FnInfo) : Bool :=
  f.nodes.any (fun n =>
    n.vread.any (fun vr =>
      match vr with
      | .sv _ => true
      | .idx _ _ => true
      | .loc _ => false))

/-! ### Concrete test inputs

Small SDGs and front-end objects used to instantiate the theorems below.
Each models the post-`build_sdg` state of a tiny contract; blocks are named
after their functions, and a one-member-list branch-group entry keeps the
state-affecting gate of `stale_read_pairs` trivially satisfied where the
example is not about that gate. -/

def svV : StateVar := ⟨"v", false, false, "uint256"⟩

def exVarV : Var := Var.sv svV

def nodeF0 : Node := .mk 0 10 NodeTy.expr [] [VRef.sv svV] [] []

def nodeG1 : Node := .mk 1 11 NodeTy.expr [VRef.sv svV] [] [] []

def fnF : FnInfo := .mk "f" "f" false "public" "nonpayable" "C" false [] (some 0) [nodeF0]

def fnG : FnInfo := .mk "g" "g" false "public" "nonpayable" "C" false [] (some 1) [nodeG1]

/-- `v` written in `f` (block `("f",0)`), read in `g` (block `("g",1)`),
`v` in a branch group. -/
def exSdg1 : SDG :=
  { blocks := [(("f", 0), ⟨[], [exVarV], []⟩), (("g", 1), ⟨[exVarV], [], []⟩)]
    var_reads := [(exVarV, [("g", 1)])]
    var_writes := [(exVarV, [("f", 0)])]
    fn_lookup := [("f", fnF), ("g", fnG)]
    branch_groups := [(1, [exVarV])]
    var_to_branchgroups := [(exVarV, [1])]
    fn_returns := [] }

def nodeF0b : Node := .mk 0 10 NodeTy.expr [VRef.sv svV] [VRef.sv svV] [] []

def fnFb : FnInfo := .mk "f" "f" false "public" "nonpayable" "C" false [] (some 0) [nodeF0b]

/-- Like `exSdg1`, but the write block `("f",0)` also *reads* `v`. -/
def exSdg6 : SDG :=
  { blocks := [(("f", 0), ⟨[exVarV], [exVarV], []⟩), (("g", 1), ⟨[exVarV], [], []⟩)]
    var_reads := [(exVarV, [("f", 0), ("g", 1)])]
    var_writes := [(exVarV, [("f", 0)])]
    fn_lookup := [("f", fnFb), ("g", fnG)]
    branch_groups := [(1, [exVarV])]
    var_to_branchgroups := [(exVarV, [1])]
    fn_returns := [] }

def svM : StateVar := ⟨"m", false, false, "mapping(address => uint256)"⟩

def mBase : Var := Var.sv svM

def nodeF0m : Node := .mk 0 10 NodeTy.expr [] [VRef.sv svM, VRef.idx svM "a"] [] []

def nodeG1m : Node := .mk 1 11 NodeTy.expr [VRef.sv svM, VRef.idx svM "b"] [] [] []

def fnFm : FnInfo := .mk "f" "f" false "public" "nonpayable" "C" false [] (some 0) [nodeF0m]

def fnGm : FnInfo := .mk "g" "g" false "public" "nonpayable" "C" false [] (some 1) [nodeG1m]

/-- A write to `m[a]` (and, as slither reports it, to the base mapping `m`)
in `f`, and a read of `m[b]` (and of `m`) in `g`. -/
def exSdg3 : SDG :=
  { blocks := [(("f", 0), ⟨[], [mBase, Var.slot svM "a"], []⟩),
               (("g", 1), ⟨[mBase, Var.slot svM "b"], [], []⟩)]
    var_reads := [(mBase, [("g", 1)]), (Var.slot svM "b", [("g", 1)])]
    var_writes := [(mBase, [("f", 0)]), (Var.slot svM "a", [("f", 0)])]
    fn_lookup := [("f", fnFm), ("g", fnGm)]
    branch_groups := [(1, [mBase])]
    var_to_branchgroups := [(mBase, [1])]
    fn_returns := [] }

/-- The default environment with `REQUIRE_SAME_SLOT_KEY=0`. -/
def cfgNoSlotKey : Config := ⟨true, false, false⟩

def nodeF0c : Node := .mk 0 10 NodeTy.expr [] [VRef.sv svV] [IROp.assign "v" "v" none] []

def fnFc : FnInfo := .mk "f" "f" false "public" "nonpayable" "C" false [] (some 0) [nodeF0c]

/-- Like `exSdg1`, but the write in `("f",0)` is the self-copy `v := v`. -/
def exSdg4 : SDG :=
  { blocks := [(("f", 0), ⟨[], [exVarV], []⟩), (("g", 1), ⟨[exVarV], [], []⟩)]
    var_reads := [(exVarV, [("g", 1)])]
    var_writes := [(exVarV, [("f", 0)])]
    fn_lookup := [("f", fnFc), ("g", fnG)]
    branch_groups := [(1, [exVarV])]
    var_to_branchgroups := [(exVarV, [1])]
    fn_returns := [] }

def svA : StateVar := ⟨"a", false, false, "uint256"⟩

def svB : StateVar := ⟨"b", false, false, "uint256"⟩

/-- A `RETURN` node reading the two state variables `a` and `b`. -/
def gNode : Node := .mk 0 20 NodeTy.ret [VRef.sv svA, VRef.sv svB] [] [] []

/-- A view function whose single node returns an expression over `a` and `b`:
it reads persistent storage and writes none. -/
def gFn : FnInfo := .mk "g()" "g" false "public" "view" "C" false [] (some 0) [gNode]

def st0 : BuildState := ⟨emptySDG, emptyRegistry⟩

/-- A unit whose only function calls `balanceof` on a destination whose
resolved name is `self`. -/
def callNodeA : Node :=
  .mk 0 30 NodeTy.expr [] [] [IROp.call false none "balanceof" (some "self") [] none] []

def unitFnA : FnInfo := .mk "g()" "g" false "public" "nonpayable" "A" false [] (some 0) [callNodeA]

/-- A unit whose only function calls `balanceof` with an unresolved
(`None`) destination. -/
def callNodeB : Node :=
  .mk 0 31 NodeTy.expr [] [] [IROp.call false none "balanceof" none [] none] []

def unitFnB : FnInfo := .mk "g()" "g" false "public" "nonpayable" "B" false [] (some 0) [callNodeB]

/-- Unit B analysed first in the process. -/
def runFresh : BuildState := build_sdg defaultCfg emptyRegistry [unitFnB]

/-- Unit B analysed after unit A in the same process (the module-level
registry carries over). -/
def runAfterA : BuildState :=
  build_sdg defaultCfg (build_sdg defaultCfg emptyRegistry [unitFnA]).reg [unitFnB]

def calleeEntryNode : Node := .mk 0 40 NodeTy.expr [VRef.sv svA] [] [] []

def calleeFn : FnInfo := .mk "h()" "h" false "public" "nonpayable" "C" false [] (some 0) [calleeEntryNode]

/-- A caller whose single node calls `h()`; adding it creates the empty
placeholder block `("h()", 0)` for the callee entry. -/
def callerNode : Node :=
  .mk 0 41 NodeTy.expr [] [] [IROp.call true (some calleeFn) "h" none [] none] []

def callerFn : FnInfo := .mk "c()" "c" false "public" "nonpayable" "C" false [] (some 0) [callerNode]

def st1 : BuildState := add_block defaultCfg st0 callerFn callerNode

/-- A two-block SDG whose successor edges form a cycle. -/
def cycSdg : SDG :=
  { blocks := [(("f", 0), ⟨[], [], [("f", 1)]⟩), (("f", 1), ⟨[], [], [("f", 0)]⟩)]
    var_reads := []
    var_writes := []
    fn_lookup := [("f", fnF)]
    branch_groups := []
    var_to_branchgroups := []
    fn_returns := [] }

/-! ## Theorems

First the soundness chain for the pair enumerator, then the claim theorems. -/

theorem srpStep_eq_some {cfg : Config} {sdg : SDG} {v : Var} {reads : List BB}
    {y : List SRKey} {w r : BB} {y2 : List SRKey} {p : SRPair}
    (h : srpStep cfg sdg v reads y w r = (y2, some p)) :
    p = (w, r, v, crossPattern w r)
    ∧ initLike (fnOf sdg r.1) = false
    ∧ w ∉ reads
    ∧ (cfg.noopWriteFilter = true →
        ∀ wn, node_by_id (fnOf sdg w.1) w.2 = some wn → is_self_copy_write v wn = false)
    ∧ (cfg.requireSameSlotKey = true → slotOverlapSkip sdg w r = false) := by
  unfold srpStep at h
  split at h
  · simp at h
  split at h
  · simp at h
  split at h
  · simp at h
  split at h
  · simp at h
  split at h
  · simp at h
  split at h
  · simp at h
  next h1 h2 h3 h4 h5 h6 =>
    simp only [Prod.mk.injEq, Option.some.injEq] at h
    refine ⟨h.2.symm, ?_, ?_, ?_, ?_⟩
    · exact Bool.not_eq_true _ ▸ (by simpa using h2)
    · simpa using h4
    · intro hn wn hwn
      rw [hn] at h5
      simp only [Bool.true_and] at h5
      rw [hwn] at h5
      simpa using h5
    · intro hs
      rw [hs] at h6
      simpa using h6

theorem srpReads_mem {cfg : Config} {sdg : SDG} {v : Var} {reads : List BB} {w : BB} :
    ∀ {rs : List BB} {y : List SRKey} {p : SRPair},
      p ∈ (srpReads cfg sdg v reads w rs y).2 →
      ∃ r y0 y1, srpStep cfg sdg v reads y0 w r = (y1, some p) := by
  intro rs
  induction rs with
  | nil => intro y p hp; simp [srpReads] at hp
  | cons r rs ih =>
    intro y p hp
    rw [srpReads] at hp
    simp only [List.mem_append] at hp
    rcases hp with hp | hp
    · rcases Option.mem_toList.mp hp with hs
      exact ⟨r, y, _, by rw [← hs]⟩
    · exact ih hp

theorem srpWrites_mem {cfg : Config} {sdg : SDG} {v : Var} {reads : List BB} :
    ∀ {ws : List BB} {y : List SRKey} {p : SRPair},
      p ∈ (srpWrites cfg sdg v reads ws y).2 →
      ∃ w, w ∈ ws ∧ ∃ r y0 y1, srpStep cfg sdg v reads y0 w r = (y1, some p) := by
  intro ws
  induction ws with
  | nil => intro y p hp; simp [srpWrites] at hp
  | cons w ws ih =>
    intro y p hp
    rw [srpWrites] at hp
    simp only [List.mem_append] at hp
    rcases hp with hp | hp
    · exact ⟨w, List.mem_cons_self _ _, srpReads_mem hp⟩
    · rcases ih hp with ⟨w2, hw2, hrest⟩
      exact ⟨w2, List.mem_cons_of_mem _ hw2, hrest⟩

theorem srpForVar_mem {cfg : Config} {sdg : SDG} {v : Var} {wl : List BB} {p : SRPair}
    (hp : p ∈ srpForVar cfg sdg v wl) :
    ∃ w, initLike (fnOf sdg w.1) = false
      ∧ ∃ r y0 y1, srpStep cfg sdg v (readsOfVar sdg v) y0 w r = (y1, some p) := by
  unfold srpForVar at hp
  split at hp
  · simp at hp
  split at hp
  · simp at hp
  split at hp
  · simp at hp
  rcases srpWrites_mem hp with ⟨w, hw, hrest⟩
  refine ⟨w, ?_, hrest⟩
  have := List.of_mem_filter hw
  simpa using this

theorem srpOuter_mem {cfg : Config} {sdg : SDG} :
    ∀ {entries : List (Var × List BB)} {p : SRPair},
      p ∈ srpOuter cfg sdg entries →
      ∃ v wl, p ∈ srpForVar cfg sdg v wl := by
  intro entries
  induction entries with
  | nil => intro p hp; exact absurd hp (List.not_mem_nil p)
  | cons e rest ih =>
    rcases e with ⟨v, wl⟩
    intro p hp
    rw [srpOuter] at hp
    simp only [List.mem_append] at hp
    rcases hp with hp | hp
    · exact ⟨v, wl, hp⟩
    · exact ih hp

/-- Everything `stale_read_pairs` guarantees about an emitted pair: neither
site sits in a constructor/initializer, the write block is not among the
variable's read blocks, the no-op-write and key-overlap gates were passed
(when their toggles are on), and the emitted pattern is `crossPattern`. -/
theorem srp_sound {cfg : Config} {sdg : SDG} {p : SRPair}
    (hp : p ∈ stale_read_pairs cfg sdg) :
    initLike (fnOf sdg p.1.1) = false
    ∧ initLike (fnOf sdg p.2.1.1) = false
    ∧ p.1 ∉ readsOfVar sdg p.2.2.1
    ∧ (cfg.noopWriteFilter = true →
        ∀ wn, node_by_id (fnOf sdg p.1.1) p.1.2 = some wn →
          is_self_copy_write p.2.2.1 wn = false)
    ∧ (cfg.requireSameSlotKey = true → slotOverlapSkip sdg p.1 p.2.1 = false)
    ∧ p.2.2.2 = crossPattern p.1 p.2.1 := by
  rcases srpOuter_mem hp with ⟨v, wl, hpv⟩
  rcases srpForVar_mem hpv with ⟨w, hwinit, r, y0, y1, hstep⟩
  rcases srpStep_eq_some hstep with ⟨hpq, hrinit, hreads, hnoop, hslot⟩
  subst hpq
  exact ⟨hwinit, hrinit, hreads, hnoop, hslot, rfl⟩

theorem crossPattern_cases (w r : BB) :
    crossPattern w r = "stale_read" ∨ crossPattern w r = "cross_tx_stale_read"
      ∨ crossPattern w r = "destructive_write" := by
  unfold crossPattern
  split
  · split
    · exact Or.inl rfl
    · exact Or.inr (Or.inl rfl)
  · exact Or.inr (Or.inr rfl)

theorem detectLabel_reentrant_sr (ca : List (String × List String)) (entryOf : BB → String)
    (sdg : SDG) (w r : BB) (v : Var) (pat : String)
    (h3 : pat = "stale_read" ∨ pat = "cross_tx_stale_read" ∨ pat = "destructive_write") :
    (detectLabel ca entryOf sdg (w, r, v, pat) = "reentrant_stale_read"
      ↔ pat = "stale_read" ∧ ¬ entryOf w = entryOf r
        ∧ ((fnOf sdg r.1).full_name ∈ (alistGet ca (fnOf sdg w.1).full_name).getD []
           ∨ (fnOf sdg w.1).full_name ∈ (alistGet ca (fnOf sdg r.1).full_name).getD [])) := by
  rcases h3 with h | h | h <;> subst h <;>
    by_cases hne : entryOf w = entryOf r <;>
      by_cases hor : ((fnOf sdg r.1).full_name ∈ (alistGet ca (fnOf sdg w.1).full_name).getD []
          ∨ (fnOf sdg w.1).full_name ∈ (alistGet ca (fnOf sdg r.1).full_name).getD []) <;>
        simp [detectLabel, hne, hor]

theorem detectLabel_reentrant_dw (ca : List (String × List String)) (entryOf : BB → String)
    (sdg : SDG) (w r : BB) (v : Var) (pat : String)
    (h3 : pat = "stale_read" ∨ pat = "cross_tx_stale_read" ∨ pat = "destructive_write") :
    (detectLabel ca entryOf sdg (w, r, v, pat) = "reentrant_destructive_write"
      ↔ pat = "destructive_write" ∧ ¬ entryOf w = entryOf r
        ∧ ((fnOf sdg r.1).full_name ∈ (alistGet ca (fnOf sdg w.1).full_name).getD []
           ∨ (fnOf sdg w.1).full_name ∈ (alistGet ca (fnOf sdg r.1).full_name).getD [])) := by
  rcases h3 with h | h | h <;> subst h <;>
    by_cases hne : entryOf w = entryOf r <;>
      by_cases hor : ((fnOf sdg r.1).full_name ∈ (alistGet ca (fnOf sdg w.1).full_name).getD []
          ∨ (fnOf sdg w.1).full_name ∈ (alistGet ca (fnOf sdg r.1).full_name).getD []) <;>
        simp [detectLabel, hne, hor]

theorem detectLabel_cross_tx (ca : List (String × List String)) (entryOf : BB → String)
    (sdg : SDG) (w r : BB) (v : Var) :
    detectLabel ca entryOf sdg (w, r, v, "cross_tx_stale_read") = "cross_tx_stale_read" := by
  by_cases hne : entryOf w = entryOf r <;>
    by_cases hor : ((fnOf sdg r.1).full_name ∈ (alistGet ca (fnOf sdg w.1).full_name).getD []
        ∨ (fnOf sdg w.1).full_name ∈ (alistGet ca (fnOf sdg r.1).full_name).getD []) <;>
      simp [detectLabel, hne, hor]

/-- C1, counterexample: in `exSdg1` the surviving pair writes at `("f",0)`
and reads at `("g",1)`; the write block id precedes the read block id in the
fixed total order, yet the emitted pattern is `cross_tx_stale_read`, not
`stale_read` — the enumerator rewrites every stale read whose two sides lie
in different functions, so the claimed "classified as `stale_read` exactly
when the write block-id precedes the read block-id" fails. -/
theorem claim1_counterexample :
    bbLt ("f", 0) ("g", 1) = true
    ∧ ((("f", 0), ("g", 1), exVarV, "cross_tx_stale_read") : SRPair)
        ∈ stale_read_pairs defaultCfg exSdg1
    ∧ ((("f", 0), ("g", 1), exVarV, "stale_read") : SRPair)
        ∉ stale_read_pairs defaultCfg exSdg1 := by
  decide

/-- C1, amended: every surviving pair carries pattern `crossPattern`:
`stale_read` iff the write block id precedes the read block id *and* both
sides share one function full-name, `cross_tx_stale_read` when the write
precedes the read across two functions, `destructive_write` otherwise.  The
detector's labelling step escalates only pairs still labelled
`stale_read`/`destructive_write` to the `reentrant_*` variant, and it does so
exactly when the two owning entries differ and one side's function is a
*direct* callee of the other (in either direction); `cross_tx_stale_read`
pairs are never escalated. -/
theorem claim1_pattern_labels :
    (∀ (cfg : Config) (sdg : SDG) (p : SRPair), p ∈ stale_read_pairs cfg sdg →
        p.2.2.2 = crossPattern p.1 p.2.1)
    ∧ (∀ (ca : List (String × List String)) (entryOf : BB → String) (sdg : SDG)
          (w r : BB) (v : Var),
        detectLabel ca entryOf sdg (w, r, v, "cross_tx_stale_read") = "cross_tx_stale_read")
    ∧ (∀ (cfg : Config) (sdg : SDG) (ca : List (String × List String))
          (entryOf : BB → String) (w r : BB) (v : Var) (pat : String),
        (w, r, v, pat) ∈ stale_read_pairs cfg sdg →
        ((detectLabel ca entryOf sdg (w, r, v, pat) = "reentrant_stale_read"
            ↔ pat = "stale_read" ∧ ¬ entryOf w = entryOf r
              ∧ ((fnOf sdg r.1).full_name ∈ (alistGet ca (fnOf sdg w.1).full_name).getD []
                 ∨ (fnOf sdg w.1).full_name ∈ (alistGet ca (fnOf sdg r.1).full_name).getD []))
          ∧ (detectLabel ca entryOf sdg (w, r, v, pat) = "reentrant_destructive_write"
            ↔ pat = "destructive_write" ∧ ¬ entryOf w = entryOf r
              ∧ ((fnOf sdg r.1).full_name ∈ (alistGet ca (fnOf sdg w.1).full_name).getD []
                 ∨ (fnOf sdg w.1).full_name ∈ (alistGet ca (fnOf sdg r.1).full_name).getD [])))) := by
  refine ⟨fun cfg sdg p hp => (srp_sound hp).2.2.2.2.2, ?_, ?_⟩
  · exact fun ca entryOf sdg w r v => detectLabel_cross_tx ca entryOf sdg w r v
  · intro cfg sdg ca entryOf w r v pat hp
    have h3 : pat = "stale_read" ∨ pat = "cross_tx_stale_read" ∨ pat = "destructive_write" := by
      have := (srp_sound hp).2.2.2.2.2
      simp only at this
      rw [this]
      exact crossPattern_cases w r
    exact ⟨detectLabel_reentrant_sr ca entryOf sdg w r v pat h3,
           detectLabel_reentrant_dw ca entryOf sdg w r v pat h3⟩

theorem claim1_pattern_labels_witness :
    ((("f", 0), ("g", 1), exVarV, "cross_tx_stale_read") : SRPair)
        ∈ stale_read_pairs defaultCfg exSdg1
    ∧ ("cross_tx_stale_read" : String) = crossPattern (("f", 0) : BB) (("g", 1) : BB) :=
  ⟨by decide,
   claim1_pattern_labels.1 defaultCfg exSdg1
     (("f", 0), ("g", 1), exVarV, "cross_tx_stale_read") (by decide)⟩

/-- C5: no surviving pair has a writer block in a constructor or recognised
initializer function, and no surviving pair has a reader whose enclosing
function is a constructor or initializer. -/
theorem claim5_no_constructor_sites (cfg : Config) (sdg : SDG) (p : SRPair)
    (hp : p ∈ stale_read_pairs cfg sdg) :
    initLike (fnOf sdg p.1.1) = false ∧ initLike (fnOf sdg p.2.1.1) = false :=
  ⟨(srp_sound hp).1, (srp_sound hp).2.1⟩

theorem claim5_no_constructor_sites_witness :
    ((("f", 0), ("g", 1), exVarV, "cross_tx_stale_read") : SRPair)
        ∈ stale_read_pairs defaultCfg exSdg1
    ∧ initLike (fnOf exSdg1 "f") = false ∧ initLike (fnOf exSdg1 "g") = false :=
  ⟨by decide,
   claim5_no_constructor_sites defaultCfg exSdg1
     (("f", 0), ("g", 1), exVarV, "cross_tx_stale_read") (by decide)⟩

/-- C3: with key-overlap checking enabled, no yielded pair has slot writes
and slot reads that share a common base mapping with disjoint key sets for
every common base (so a write to `m[a]` never pairs with a read of `m[b]`);
with `REQUIRE_SAME_SLOT_KEY` disabled, `exSdg3` yields exactly such a pair. -/
theorem claim3_key_overlap :
    (∀ (cfg : Config) (sdg : SDG) (p : SRPair), cfg.requireSameSlotKey = true →
        p ∈ stale_read_pairs cfg sdg → slotOverlapSkip sdg p.1 p.2.1 = false)
    ∧ ((("f", 0), ("g", 1), mBase, "cross_tx_stale_read") : SRPair)
        ∈ stale_read_pairs cfgNoSlotKey exSdg3
    ∧ slotOverlapSkip exSdg3 ("f", 0) ("g", 1) = true :=
  ⟨fun cfg sdg p hc hp => (srp_sound hp).2.2.2.2.1 hc, by decide, by decide⟩

theorem claim3_key_overlap_witness :
    defaultCfg.requireSameSlotKey = true
    ∧ ((("f", 0), ("g", 1), exVarV, "cross_tx_stale_read") : SRPair)
        ∈ stale_read_pairs defaultCfg exSdg1
    ∧ slotOverlapSkip exSdg1 ("f", 0) ("g", 1) = false :=
  ⟨rfl, by decide,
   claim3_key_overlap.1 defaultCfg exSdg1
     (("f", 0), ("g", 1), exVarV, "cross_tx_stale_read") rfl (by decide)⟩

/-- C6, counterexample: in `exSdg6` the write block `("f",0)` differs from
the read block `("g",1)`, yet the combination is discarded, because the
filter at `sdg.py:543` tests `w_bid in reads` — membership of the write
block among *all* read blocks of the variable — not equality of the two
blocks.  `exSdg1`, identical except that its write block does not read `v`,
yields the pair, so this filter (and no other) is what discards it. -/
theorem claim6_counterexample :
    (("f", 0) : BB) ≠ ("g", 1)
    ∧ (("f", 0) : BB) ∈ readsOfVar exSdg6 exVarV
    ∧ stale_read_pairs defaultCfg exSdg6 = []
    ∧ ((("f", 0), ("g", 1), exVarV, "cross_tx_stale_read") : SRPair)
        ∈ stale_read_pairs defaultCfg exSdg1 := by
  decide

/-- C6, amended: the filter discards a `(write, read)` combination exactly
when the write block is among the variable's read blocks; every surviving
pair therefore has a writer block that does not read the variable (same-block
combinations are the special case `w = r`, but distinct-block combinations
whose write block reads the variable are discarded as well). -/
theorem claim6_write_block_read_filter (cfg : Config) (sdg : SDG) (p : SRPair)
    (hp : p ∈ stale_read_pairs cfg sdg) :
    p.1 ∉ readsOfVar sdg p.2.2.1 :=
  (srp_sound hp).2.2.1

theorem claim6_write_block_read_filter_witness :
    ((("f", 0), ("g", 1), exVarV, "cross_tx_stale_read") : SRPair)
        ∈ stale_read_pairs defaultCfg exSdg1
    ∧ (("f", 0) : BB) ∉ readsOfVar exSdg1 exVarV :=
  ⟨by decide,
   claim6_write_block_read_filter defaultCfg exSdg1
     (("f", 0), ("g", 1), exVarV, "cross_tx_stale_read") (by decide)⟩

theorem selfCopyLoop_true {x : String} {defs : List (String × String)} :
    ∀ {l : List (String × String)} {found : Bool},
      (found = true ∨ ∃ pr ∈ l, pr.1 = x) →
      (∀ pr ∈ l, pr.1 = x → pr.2 = x ∨ resolve_alias pr.2 defs = x) →
      selfCopyLoop x defs l found = true := by
  intro l
  induction l with
  | nil =>
    intro found hex _
    rcases hex with hex | ⟨pr, hpr, _⟩
    · rw [selfCopyLoop]; exact hex
    · exact absurd hpr (List.not_mem_nil _)
  | cons pr rest ih =>
    rcases pr with ⟨lv, rv⟩
    intro found hex hall
    rw [selfCopyLoop]
    split
    next hlv =>
      refine ih ?_ ?_
      · rcases hex with hex | ⟨q, hq, hqx⟩
        · exact Or.inl hex
        · rcases List.mem_cons.mp hq with hq | hq
          · exact absurd (hq ▸ hqx) (by simpa using hlv)
          · exact Or.inr ⟨q, hq, hqx⟩
      · exact fun q hq hqx => hall q (List.mem_cons_of_mem _ hq) hqx
    next hlv =>
      have hlvx : lv = x := by simpa using hlv
      split
      next => exact ih (Or.inl rfl) (fun q hq hqx => hall q (List.mem_cons_of_mem _ hq) hqx)
      next hrv =>
        split
        next => exact ih (Or.inl rfl) (fun q hq hqx => hall q (List.mem_cons_of_mem _ hq) hqx)
        next hres =>
          have := hall (lv, rv) (List.mem_cons_self _ _) hlvx
          rcases this with h | h
          · exact absurd h hrv
          · exact absurd h hres

theorem is_self_copy_write_true {v : Var} {n : Node}
    (hext : isExtVar v = false)
    (hex : ∃ pr ∈ assignsOf n, pr.1 = varKeyTxt v)
    (hall : ∀ pr ∈ assignsOf n, pr.1 = varKeyTxt v →
        pr.2 = varKeyTxt v ∨ resolve_alias pr.2 (build_defs_map n) = varKeyTxt v) :
    is_self_copy_write v n = true := by
  unfold is_self_copy_write
  simp only [hext, Bool.false_eq_true, if_false]
  exact selfCopyLoop_true (Or.inr hex) hall

/-- C4: with no-op write filtering enabled, a write node whose assignments to
the (non-external) variable all have a right-hand side equal to the variable
itself — directly or after at most 3 within-node local-alias resolutions —
is never yielded as the writer of any pair for that variable. -/
theorem claim4_self_copy_never_writer (cfg : Config) (sdg : SDG) (v : Var) (w r : BB)
    (pat : String) (wn : Node)
    (hcfg : cfg.noopWriteFilter = true)
    (hext : isExtVar v = false)
    (hnode : node_by_id (fnOf sdg w.1) w.2 = some wn)
    (hex : ∃ pr ∈ assignsOf wn, pr.1 = varKeyTxt v)
    (hall : ∀ pr ∈ assignsOf wn, pr.1 = varKeyTxt v →
        pr.2 = varKeyTxt v ∨ resolve_alias pr.2 (build_defs_map wn) = varKeyTxt v) :
    ((w, r, v, pat) : SRPair) ∉ stale_read_pairs cfg sdg := by
  intro hp
  have hno := (srp_sound hp).2.2.2.1 hcfg wn hnode
  rw [is_self_copy_write_true hext hex hall] at hno
  simp at hno

theorem claim4_self_copy_never_writer_witness :
    defaultCfg.noopWriteFilter = true
    ∧ isExtVar exVarV = false
    ∧ node_by_id (fnOf exSdg4 "f") 0 = some nodeF0c
    ∧ (∃ pr ∈ assignsOf nodeF0c, pr.1 = varKeyTxt exVarV)
    ∧ ((("f", 0), ("g", 1), exVarV, "stale_read") : SRPair)
        ∉ stale_read_pairs defaultCfg exSdg4 :=
  ⟨rfl, rfl, rfl, by decide,
   claim4_self_copy_never_writer defaultCfg exSdg4 exVarV ("f", 0) ("g", 1) "stale_read"
     nodeF0c rfl rfl rfl (by decide) (by decide)⟩

/-- C7: with the divergence budget 0 and a sink-gating policy enabled
(`SINK_TEST` is `value` or `samevar`), the sink test returns `false` for
every variable and read block, so every enumerated pair is discarded by the
sink gate and zero sink-gated findings are emitted — for every SDG and every
behaviour of the other (admin/init/latch) gates. -/
theorem claim7_zero_budget (cfg : Config) (st : String) (v : Var) (bid : BB) (sdg : SDG)
    (adminSkip initSkip latchSkip : SRPair → Bool)
    (hst : st = "value" ∨ st = "samevar") :
    hits_sink st (some 0) v bid sdg = false
    ∧ detectSurvivingPairs cfg st (some 0) adminSkip initSkip latchSkip sdg = [] := by
  have hsink : ∀ (v2 : Var) (b2 : BB), hits_sink st (some 0) v2 b2 sdg = false := by
    intro v2 b2
    rcases hst with h | h <;> subst h <;>
      simp [hits_sink, value_influence_hits_sensitive_sink, forward_slice_hits_sink_from]
  refine ⟨hsink v bid, ?_⟩
  unfold detectSurvivingPairs
  rw [List.filter_eq_nil_iff]
  intro p _
  rw [hsink p.2.2.1 p.2.1]
  simp

theorem claim7_zero_budget_witness :
    (("value" : String) = "value" ∨ ("value" : String) = "samevar")
    ∧ hits_sink "value" (some 0) exVarV ("g", 1) exSdg1 = false
    ∧ detectSurvivingPairs defaultCfg "value" (some 0)
        (fun _ => false) (fun _ => false) (fun _ => false) exSdg1 = [] :=
  ⟨Or.inl rfl,
   claim7_zero_budget defaultCfg "value" exVarV ("g", 1) exSdg1
     (fun _ => false) (fun _ => false) (fun _ => false) (Or.inl rfl)⟩

/-- C10: a second `add_block` call for a block id already present in
`SDG.blocks` — for instance an empty placeholder created while processing a
caller's inter-procedural call edge — returns immediately and leaves the
whole build state (blocks, read/write maps, successor edges, registry)
unchanged. -/
theorem claim10_add_block_noop (cfg : Config) (st : BuildState) (fn : FnInfo) (node : Node)
    (h : (alistGet st.sdg.blocks (fn.full_name, node.node_id)).isSome = true) :
    add_block cfg st fn node = st := by
  unfold add_block
  simp only [h, if_true]

theorem claim10_add_block_noop_witness :
    (alistGet st1.sdg.blocks ("h()", 0)).isSome = true
    ∧ add_block defaultCfg st1 calleeFn calleeEntryNode = st1 :=
  ⟨by decide, claim10_add_block_noop defaultCfg st1 calleeFn calleeEntryNode (by decide)⟩

theorem alistGet_append_of_none {κ β : Type} [DecidableEq κ]
    {l : List (κ × β)} {k : κ} (b : β) (h : alistGet l k = none) :
    alistGet (l ++ [(k, b)]) k = some b := by
  induction l with
  | nil => simp [alistGet]
  | cons e rest ih =>
    rw [List.cons_append, alistGet]
    rw [alistGet] at h
    split at h
    · exact absurd h (by simp)
    next hne => rw [if_neg hne]; exact ih h

theorem alistGet_mem {κ β : Type} [DecidableEq κ]
    {l : List (κ × β)} {k : κ} {b : β} (h : alistGet l k = some b) : (k, b) ∈ l := by
  induction l with
  | nil => simp [alistGet] at h
  | cons e rest ih =>
    rw [alistGet] at h
    split at h
    next heq =>
      rcases Option.some.injEq _ _ ▸ h with rfl
      rcases e with ⟨k0, b0⟩
      simp_all
    next => exact List.mem_cons_of_mem _ (ih h)

theorem retExprVars_of_no_rets {f : FnInfo}
    (h : (f.nodes.filter (fun n => n.ty == NodeTy.ret)).isEmpty = true) :
    retExprVars f = [] := by
  unfold retExprVars
  rw [List.isEmpty_iff.mp h]
  rfl

theorem bgStep_fn_returns (cfg : Config) (gid : Nat) (s : SDG) (cv : Var) :
    (bgStep cfg gid s cv).fn_returns = s.fn_returns := by
  unfold bgStep
  split <;> rfl

theorem foldl_bgStep_fn_returns (cfg : Config) (gid : Nat) :
    ∀ (cvs : List Var) (sdg : SDG),
      (List.foldl (bgStep cfg gid) sdg cvs).fn_returns = sdg.fn_returns := by
  intro cvs
  induction cvs with
  | nil => intro sdg; rfl
  | cons cv rest ih => intro sdg; rw [List.foldl_cons, ih, bgStep_fn_returns]

theorem registerBG_fn_returns (cfg : Config) (sdg : SDG) (gid : Nat) (cvs : List Var) :
    (registerBG cfg sdg gid cvs).fn_returns = sdg.fn_returns := by
  unfold registerBG
  split
  · exact foldl_bgStep_fn_returns cfg gid cvs sdg
  · rfl

theorem callEdgeStep_fn_returns (acc : CallAcc) (bid : BB) (callee : Option FnInfo) :
    (callEdgeStep acc bid callee).sdg.fn_returns = acc.sdg.fn_returns := by
  unfold callEdgeStep
  split
  · split <;> rfl
  · rfl

theorem callSummaryStep_fn_returns (acc : CallAcc) (callee : Option FnInfo)
    (fname : String) (args : List String) :
    (callSummaryStep acc callee fname args).sdg.fn_returns = acc.sdg.fn_returns := by
  unfold callSummaryStep
  split
  · split <;> rfl
  · split
    · split <;> rfl
    · rfl

theorem callExtStep_fn_returns (acc : CallAcc) (fn : FnInfo) (fname : String)
    (dest : Option String) :
    (callExtStep acc fn fname dest).sdg.fn_returns = acc.sdg.fn_returns := by
  unfold callExtStep
  split <;> rfl

theorem processCallIr_fn_returns (acc : CallAcc) (fn : FnInfo) (bid : BB) (ir : IROp) :
    (processCallIr acc fn bid ir).sdg.fn_returns = acc.sdg.fn_returns := by
  cases ir <;> simp only [processCallIr]
  case call internal callee fname dest args lv =>
    rw [callExtStep_fn_returns, callSummaryStep_fn_returns, callEdgeStep_fn_returns]

theorem foldl_processCallIr_fn_returns (fn : FnInfo) (bid : BB) :
    ∀ (irs : List IROp) (acc : CallAcc),
      (List.foldl (fun a ir => processCallIr a fn bid ir) acc irs).sdg.fn_returns
        = acc.sdg.fn_returns := by
  intro irs
  induction irs with
  | nil => intro acc; rfl
  | cons ir rest ih =>
    intro acc
    rw [List.foldl_cons, ih, processCallIr_fn_returns]

/-- No step of `add_block` after the summarization writes `fn_returns`. -/
theorem add_block_fn_returns (cfg : Config) (st : BuildState) (fn : FnInfo) (node : Node)
    (hfresh : (alistGet st.sdg.blocks (fn.full_name, node.node_id)).isSome = false) :
    (add_block cfg st fn node).sdg.fn_returns = (registerFnReturns st.sdg fn).fn_returns := by
  unfold add_block
  simp only [hfresh, Bool.false_eq_true, if_false]
  rw [foldl_processCallIr_fn_returns]
  split
  · exact registerBG_fn_returns _ _ _ _
  · rfl

theorem registerFnReturns_mem_iff (sdg : SDG) (fn : FnInfo)
    (hnew : alistGet sdg.fn_returns fn.full_name = none) :
    ((alistGet (registerFnReturns sdg fn).fn_returns fn.full_name).isSome = true
      ↔ (fnWritesStorage fn = false ∧ 2 ≤ (retExprVars fn).length)) := by
  unfold registerFnReturns
  rw [hnew]
  simp only [Option.isSome_none, Bool.false_eq_true, if_false]
  split
  next hws =>
    rw [hnew]
    simp [hws]
  next hws =>
    have hws2 : fnWritesStorage fn = false := by simpa using hws
    split
    next hrets =>
      rw [hnew]
      simp only [Option.isSome_none, Bool.false_eq_true, false_iff, not_and]
      intro _ h2
      rw [retExprVars_of_no_rets hrets] at h2
      simp at h2
    next hrets =>
      split
      next hlen =>
        rw [alistGet_append_of_none _ hnew]
        simp [hws2, hlen]
      next hlen =>
        rw [hnew]
        simp only [Option.isSome_none, Bool.false_eq_true, false_iff, not_and]
        intro _ h2
        exact hlen h2

/-- C2, amended: a first-visited function is recorded as a pure multi-return
function if and only if it *writes* no persistent storage anywhere (the
specification says *reads*, which the code does not check) and at least 2
distinct variables appear in its return expressions. -/
theorem claim2_fn_returns_iff (cfg : Config) (st : BuildState) (fn : FnInfo) (node : Node)
    (hfresh : (alistGet st.sdg.blocks (fn.full_name, node.node_id)).isSome = false)
    (hnew : alistGet st.sdg.fn_returns fn.full_name = none) :
    ((alistGet (add_block cfg st fn node).sdg.fn_returns fn.full_name).isSome = true
      ↔ (fnWritesStorage fn = false ∧ 2 ≤ (retExprVars fn).length)) := by
  rw [add_block_fn_returns cfg st fn node hfresh]
  exact registerFnReturns_mem_iff st.sdg fn hnew

theorem claim2_fn_returns_iff_witness :
    (alistGet st0.sdg.blocks ("g()", 0)).isSome = false
    ∧ alistGet st0.sdg.fn_returns "g()" = none
    ∧ ((alistGet (add_block defaultCfg st0 gFn gNode).sdg.fn_returns "g()").isSome = true
        ↔ (fnWritesStorage gFn = false ∧ 2 ≤ (retExprVars gFn).length)) :=
  ⟨rfl, rfl, claim2_fn_returns_iff defaultCfg st0 gFn gNode rfl rfl⟩

/-- C2, counterexample: `gFn` reads persistent storage (its return expression
reads the state variables `a` and `b`), yet the builder records it in
`fn_returns` — so "recorded iff the function reads no persistent storage
anywhere and ≥2 distinct variables appear in its return expressions" fails:
the code gates the summary on *writing* no storage, and any function whose
return expressions mention ≥2 storage variables necessarily reads storage. -/
theorem claim2_counterexample :
    fnReadsStorage gFn = true
    ∧ (alistGet (add_block defaultCfg st0 gFn gNode).sdg.fn_returns "g()").isSome = true := by
  decide

/-- The invariant every registry state reachable through `get_or_create`
satisfies: an entry's wrapper value carries its key's selector and its key's
address — except entries created from a missing/empty address, whose key
address is `"self"` while the wrapper's is `"unknown"`. -/
def registryInv (r : Registry) : Prop :=
  ∀ e ∈ r.key_to_var,
    e.2 = Var.ext e.1.selector e.1.addr
    ∨ (e.1.addr = "self" ∧ e.2 = Var.ext e.1.selector "unknown")

/-- C9, amended: the SDG is rebuilt per run, but the alias registry is
module-level process state; its observable resolution is nevertheless
run-independent for every call site whose destination address is present and
does not canonicalise to `"self"`: `get_or_create` then returns the wrapper
value determined by the canonical key alone, on *every* registry state
reachable through `get_or_create` (the invariant is preserved).  The
exception the counterexample exhibits — a missing address colliding with a
prior `"self"`-addressed entry — is the one source of cross-run divergence. -/
theorem claim9_registry_value_determinism (r : Registry) (addr : Option String)
    (sel caller : String) (hinv : registryInv r) :
    registryInv (get_or_create r addr sel caller).1
    ∧ (∀ s, addr = some s → s ≠ "" → pyLower s ≠ "self" →
        (get_or_create r addr sel caller).2 = Var.ext (pyLower sel) (pyLower s)) := by
  constructor
  · unfold get_or_create
    split
    next v hget =>
      intro e he
      exact hinv e he
    next hget =>
      intro e he
      simp only [List.mem_append, List.mem_singleton] at he
      rcases he with he | he
      · exact hinv e he
      · subst he
        unfold canonAliasKey mkExternalStateVar
        cases addr with
        | none => exact Or.inr ⟨rfl, rfl⟩
        | some s =>
          by_cases hs : s = ""
          · subst hs
            exact Or.inr ⟨rfl, rfl⟩
          · left
            simp [pyOr, hs]
  · intro s hs hne hlow
    subst hs
    unfold get_or_create
    split
    next v hget =>
      have hmem := alistGet_mem hget
      rcases hinv _ hmem with hv | ⟨haddr, _⟩
      · rw [hv]
        unfold canonAliasKey
        simp [pyOr, hne]
      · exact absurd (by simpa [canonAliasKey, pyOr, hne] using haddr) hlow
    next hget =>
      unfold mkExternalStateVar
      simp [pyOr, hne]

theorem claim9_registry_value_determinism_witness :
    registryInv emptyRegistry
    ∧ (get_or_create emptyRegistry (some "0xToken") "balanceof" "f()").2
        = Var.ext (pyLower "balanceof") (pyLower "0xToken") :=
  ⟨fun e he => absurd he (List.not_mem_nil e),
   (claim9_registry_value_determinism emptyRegistry (some "0xToken") "balanceof" "f()"
      (fun e he => absurd he (List.not_mem_nil e))).2
     "0xToken" rfl (by decide) (by decide)⟩

/-- C9, counterexample: analysing unit B (a `balanceof` call with a missing
destination address) in a fresh process records a read of
`EXT::unknown::balanceof`, but analysing it after unit A (whose destination
resolves to the name `self`) returns A's cached wrapper
`EXT::self::balanceof` — the alias registry is module-level state that is
*not* rebuilt per compilation unit, and here it changes the produced SDG
contents, refuting two-run independence. -/
theorem claim9_counterexample :
    runFresh.sdg.var_reads = [(Var.ext "balanceof" "unknown", [("g()", 0)])]
    ∧ runAfterA.sdg.var_reads = [(Var.ext "balanceof" "self", [("g()", 0)])]
    ∧ runFresh.sdg.var_reads ≠ runAfterA.sdg.var_reads := by
  decide

theorem mem_univList {x : BB} {bi : BlockInfo} :
    ∀ {l : List (BB × BlockInfo)} {bid : BB}, (bid, bi) ∈ l → x ∈ bi.succ →
      x ∈ l.foldr (fun e a => e.2.succ ++ a) [] := by
  intro l
  induction l with
  | nil => intro bid h _; exact absurd h (List.not_mem_nil _)
  | cons e rest ih =>
    intro bid h hx
    rw [List.foldr_cons]
    rcases List.mem_cons.mp h with h | h
    · subst h
      exact List.mem_append_left _ hx
    · exact List.mem_append_right _ (ih h hx)

theorem succ_subset_univ (sdg : SDG) (cur : BB) :
    ∀ x ∈ (blockOf sdg cur).succ, x ∈ univList sdg := by
  intro x hx
  unfold blockOf at hx
  rcases hget : alistGet sdg.blocks cur with _ | bi
  · rw [hget] at hx
    exact absurd hx (List.not_mem_nil _)
  · rw [hget] at hx
    exact mem_univList (alistGet_mem hget) hx

theorem card_filter_cons {univ : Finset BB} {nxt : BB} {seen : List BB}
    (hu : nxt ∈ univ) (hs : nxt ∉ seen) :
    (univ.filter (fun b => b ∉ seen)).card
      = (univ.filter (fun b => b ∉ (nxt :: seen))).card + 1 := by
  have hset : univ.filter (fun b => b ∉ seen)
      = insert nxt (univ.filter (fun b => b ∉ (nxt :: seen))) := by
    ext b
    by_cases hb : b = nxt
    · subst hb
      simp [hu, hs]
    · simp [hb, List.mem_cons]
  rw [hset, Finset.card_insert_of_not_mem]
  simp [List.mem_cons]

theorem scanSuccs_measure (sdg : SDG) (P : BfsParams) :
    ∀ (l seen q : List BB),
      (∀ x ∈ l, x ∈ univList sdg) →
      ∀ s2 q2, scanSuccs P l seen q = (false, s2, q2) →
      ((univList sdg).toFinset.filter (fun b => b ∉ s2)).card + q2.length
        = ((univList sdg).toFinset.filter (fun b => b ∉ seen)).card + q.length := by
  intro l
  induction l with
  | nil =>
    intro seen q _ s2 q2 h
    rw [scanSuccs] at h
    simp only [Prod.mk.injEq] at h
    rw [← h.2.1, ← h.2.2]
  | cons nxt rest ih =>
    intro seen q hl s2 q2 h
    rw [scanSuccs] at h
    split at h
    · simp at h
    split at h
    next hseen =>
      exact ih seen q (fun x hx => hl x (List.mem_cons_of_mem _ hx)) s2 q2 h
    split at h
    next hseen hpush =>
      have hrec := ih (nxt :: seen) (q ++ [nxt])
        (fun x hx => hl x (List.mem_cons_of_mem _ hx)) s2 q2 h
      rw [hrec]
      have hu : nxt ∈ (univList sdg).toFinset :=
        List.mem_toFinset.mpr (hl nxt (List.mem_cons_self _ _))
      rw [card_filter_cons hu hseen]
      simp only [List.length_append, List.length_singleton]
      omega
    next =>
      exact ih seen q (fun x hx => hl x (List.mem_cons_of_mem _ hx)) s2 q2 h

theorem bfsAux_nil (sdg : SDG) (P : BfsParams) (budget : Option Nat) :
    ∀ (f steps : Nat) (seen : List BB), bfsAux sdg P budget f steps [] seen = false := by
  intro f steps seen
  cases f <;> rfl

theorem bfsAux_stable (sdg : SDG) (P : BfsParams) :
    ∀ (n : Nat), ∀ (f1 f2 steps : Nat) (q seen : List BB),
      bfsMeasure sdg q seen ≤ n → n ≤ f1 → n ≤ f2 →
      bfsAux sdg P none f1 steps q seen = bfsAux sdg P none f2 steps q seen := by
  intro n
  induction n with
  | zero =>
    intro f1 f2 steps q seen hm _ _
    have hq0 : q.length = 0 := by
      unfold bfsMeasure at hm
      omega
    rw [List.length_eq_zero.mp hq0]
    rw [bfsAux_nil, bfsAux_nil]
  | succ m ih =>
    intro f1 f2 steps q seen hm h1 h2
    cases q with
    | nil => rw [bfsAux_nil, bfsAux_nil]
    | cons cur rest =>
      cases f1 with
      | zero => exact absurd h1 (by omega)
      | succ f1p =>
        cases f2 with
        | zero => exact absurd h2 (by omega)
        | succ f2p =>
          rw [bfsAux, bfsAux]
          rcases hscan : scanSuccs P (blockOf sdg cur).succ seen rest with ⟨b, s2, q2⟩
          cases b with
          | true => rfl
          | false =>
            simp only [budgetOk, if_true]
            by_cases hstop : P.stopAtPop cur = true
            · rw [hstop]
              rfl
            · rw [Bool.not_eq_true] at hstop
              rw [hstop]
              simp only [Bool.false_eq_true, if_false]
              have hmeq := scanSuccs_measure sdg P (blockOf sdg cur).succ seen rest
                (succ_subset_univ sdg cur) s2 q2 hscan
              refine ih f1p f2p (steps + 1) q2 s2 ?_ ?_ ?_
              · unfold bfsMeasure at hm ⊢
                rw [hmeq]
                simp only [List.length_cons] at hm
                omega
              · omega
              · omega

theorem bfsMeasure_start_le (sdg : SDG) (x : BB) :
    bfsMeasure sdg [x] [x] ≤ unbFuel sdg := by
  unfold bfsMeasure unbFuel
  have h1 : ((univList sdg).toFinset.filter (fun b => b ∉ ([x] : List BB))).card
      ≤ (univList sdg).toFinset.card := Finset.card_filter_le _ _
  have h2 : (univList sdg).toFinset.card ≤ (univList sdg).length := (univList sdg).toFinset_card_le
  simp only [List.length_singleton]
  omega

/-- C8: on every finite SDG — cyclic successor edges included — the three
worklist traversals (`reachable_without_overwrite`, the same-variable forward
slice and the value-influence search) terminate even at the unbounded budget
`None`: because every block is marked seen when enqueued, the loop stabilises
within `unbFuel` iterations, so any larger fuel computes the same result as
the canonical fuel the top-level definitions use. -/
theorem claim8_traversals_terminate (sdg : SDG) (v : Var) (src dst start : BB) (f : Nat)
    (hf : unbFuel sdg ≤ f) :
    bfsAux sdg (rwoParams sdg dst v) none f 0 [src] [src]
      = bfsAux sdg (rwoParams sdg dst v) none (unbFuel sdg) 0 [src] [src]
    ∧ bfsAux sdg (fsParams sdg v start) none f 0 [start] [start]
      = bfsAux sdg (fsParams sdg v start) none (travFuel sdg none) 0 [start] [start]
    ∧ bfsAux sdg (viParams sdg v start) none f 0 [start] [start]
      = bfsAux sdg (viParams sdg v start) none (travFuel sdg none) 0 [start] [start] :=
  ⟨bfsAux_stable sdg (rwoParams sdg dst v) (unbFuel sdg) f (unbFuel sdg) 0 [src] [src]
      (bfsMeasure_start_le sdg src) hf (Nat.le_refl _),
   bfsAux_stable sdg (fsParams sdg v start) (unbFuel sdg) f (unbFuel sdg) 0 [start] [start]
      (bfsMeasure_start_le sdg start) hf (Nat.le_refl _),
   bfsAux_stable sdg (viParams sdg v start) (unbFuel sdg) f (unbFuel sdg) 0 [start] [start]
      (bfsMeasure_start_le sdg start) hf (Nat.le_refl _)⟩

theorem claim8_traversals_terminate_witness :
    unbFuel cycSdg ≤ 11
    ∧ bfsAux cycSdg (rwoParams cycSdg ("x", 5) exVarV) none 11 0 [("f", 0)] [("f", 0)]
      = bfsAux cycSdg (rwoParams cycSdg ("x", 5) exVarV) none (unbFuel cycSdg) 0
          [("f", 0)] [("f", 0)] :=
  ⟨by decide,
   (claim8_traversals_terminate cycSdg exVarV ("f", 0) ("x", 5) ("f", 0) 11 (by decide)).1⟩

end MVScan
